import Mathlib

/-! # go-onlyoffice: token service and callback receiver

A shallow embedding of `client.go`, `callback.go`, `handler.go`,
`conversion.go`, `history.go`, `models/callback.go` and `models/config.go`.

Conventions of the embedding.

* A Go `string` / `[]byte` is a list of bytes (`GoString`); `len`, `s[:7]` and
  `s[7:]` are `List.length`, `List.take 7` and `List.drop 7`.
* A Go `error` is its message text; a `(T, error)` result of which exactly one
  component is set is an `Except GoError T`; a bare `error` result is an
  `Option GoError` (`none` is `nil`).
* Decoded JSON (`any`) is the type `Value`; a `float64` that came out of a JSON
  document is the rational number it denotes.
* The two third-party packages the code calls, `encoding/json` and
  `github.com/golang-jwt/jwt/v5`, are not part of the repository.  `json.Unmarshal`
  into a `models.Callback`, the token codec and the MAC are fields of the
  environment `Env`; the verification pipeline of `jwt.Parse` is modelled from
  the specification on top of them.
-/

namespace OnlyOffice

/-! ## Go base types -/

/-- Byte sequence standing for a Go `string` or `[]byte`. -/
abbrev GoString := List UInt8

/-- The Go string literal with the given text (UTF-8 bytes). -/
def str (s : String) : GoString := s.toUTF8.data.toList

/-- Message of a Go `error` value. -/
abbrev GoError := GoString

/-- Decoded JSON value, the dynamic type `any` of `map[string]any`:
`nil`, `bool`, `float64`, `string`, `[]any`, `map[string]any`. -/
inductive Value where
  | null
  | bool (b : Bool)
  | number (f : ℚ)
  | str (s : GoString)
  | array (xs : List Value)
  | object (kvs : List (GoString × Value))

mutual
/-- Decidable equality of decoded JSON values. -/
def Value.decEq : (a b : Value) → Decidable (a = b)
  | .null, .null => isTrue rfl
  | .bool a, .bool b =>
    if h : a = b then isTrue (congrArg Value.bool h)
    else isFalse (fun e => h (Value.bool.inj e))
  | .number a, .number b =>
    if h : a = b then isTrue (congrArg Value.number h)
    else isFalse (fun e => h (Value.number.inj e))
  | .str a, .str b =>
    if h : a = b then isTrue (congrArg Value.str h)
    else isFalse (fun e => h (Value.str.inj e))
  | .array a, .array b =>
    match Value.decEqList a b with
    | isTrue h => isTrue (congrArg Value.array h)
    | isFalse h => isFalse (fun e => h (Value.array.inj e))
  | .object a, .object b =>
    match Value.decEqFields a b with
    | isTrue h => isTrue (congrArg Value.object h)
    | isFalse h => isFalse (fun e => h (Value.object.inj e))
  | .null, .bool _ => isFalse (fun e => Value.noConfusion e)
  | .null, .number _ => isFalse (fun e => Value.noConfusion e)
  | .null, .str _ => isFalse (fun e => Value.noConfusion e)
  | .null, .array _ => isFalse (fun e => Value.noConfusion e)
  | .null, .object _ => isFalse (fun e => Value.noConfusion e)
  | .bool _, .null => isFalse (fun e => Value.noConfusion e)
  | .bool _, .number _ => isFalse (fun e => Value.noConfusion e)
  | .bool _, .str _ => isFalse (fun e => Value.noConfusion e)
  | .bool _, .array _ => isFalse (fun e => Value.noConfusion e)
  | .bool _, .object _ => isFalse (fun e => Value.noConfusion e)
  | .number _, .null => isFalse (fun e => Value.noConfusion e)
  | .number _, .bool _ => isFalse (fun e => Value.noConfusion e)
  | .number _, .str _ => isFalse (fun e => Value.noConfusion e)
  | .number _, .array _ => isFalse (fun e => Value.noConfusion e)
  | .number _, .object _ => isFalse (fun e => Value.noConfusion e)
  | .str _, .null => isFalse (fun e => Value.noConfusion e)
  | .str _, .bool _ => isFalse (fun e => Value.noConfusion e)
  | .str _, .number _ => isFalse (fun e => Value.noConfusion e)
  | .str _, .array _ => isFalse (fun e => Value.noConfusion e)
  | .str _, .object _ => isFalse (fun e => Value.noConfusion e)
  | .array _, .null => isFalse (fun e => Value.noConfusion e)
  | .array _, .bool _ => isFalse (fun e => Value.noConfusion e)
  | .array _, .number _ => isFalse (fun e => Value.noConfusion e)
  | .array _, .str _ => isFalse (fun e => Value.noConfusion e)
  | .array _, .object _ => isFalse (fun e => Value.noConfusion e)
  | .object _, .null => isFalse (fun e => Value.noConfusion e)
  | .object _, .bool _ => isFalse (fun e => Value.noConfusion e)
  | .object _, .number _ => isFalse (fun e => Value.noConfusion e)
  | .object _, .str _ => isFalse (fun e => Value.noConfusion e)
  | .object _, .array _ => isFalse (fun e => Value.noConfusion e)
/-- Decidable equality of lists of decoded JSON values. -/
def Value.decEqList : (a b : List Value) → Decidable (a = b)
  | [], [] => isTrue rfl
  | [], _ :: _ => isFalse (fun e => List.noConfusion e)
  | _ :: _, [] => isFalse (fun e => List.noConfusion e)
  | x :: xs, y :: ys =>
    match Value.decEq x y, Value.decEqList xs ys with
    | isTrue h, isTrue t => isTrue (by rw [h, t])
    | isFalse h, _ => isFalse (fun e => h (List.cons.inj e).1)
    | _, isFalse t => isFalse (fun e => t (List.cons.inj e).2)
/-- Decidable equality of the member lists of decoded JSON objects. -/
def Value.decEqFields : (a b : List (GoString × Value)) → Decidable (a = b)
  | [], [] => isTrue rfl
  | [], _ :: _ => isFalse (fun e => List.noConfusion e)
  | _ :: _, [] => isFalse (fun e => List.noConfusion e)
  | (k, x) :: xs, (l, y) :: ys =>
    if hk : k = l then
      match Value.decEq x y, Value.decEqFields xs ys with
      | isTrue h, isTrue t => isTrue (by rw [hk, h, t])
      | isFalse h, _ => isFalse (fun e => h (Prod.mk.inj (List.cons.inj e).1).2)
      | _, isFalse t => isFalse (fun e => t (List.cons.inj e).2)
    else isFalse (fun e => hk (Prod.mk.inj (List.cons.inj e).1).1)
end

instance : DecidableEq Value := Value.decEq

/-- The claim mapping `jwt.MapClaims` (`map[string]any`), as an association list;
a key is looked up at its first entry. -/
abbrev MapClaims := List (GoString × Value)

/-- Go map indexing `claims[k]` on a possibly nil map: the stored value, and
`nil` (here `Value.null`) when the map is nil or has no entry for `k`. -/
def index (claims : Option MapClaims) (k : GoString) : Value :=
  match claims with
  | none => Value.null
  | some m =>
    match m.find? (fun kv => kv.1 = k) with
    | some kv => kv.2
    | none => Value.null

/-- Go conversion `int(f)` of a `float64` into the 64-bit `int`: the fractional
part is discarded (truncation towards zero) when the truncated value lies
between -2^63 and 2^63 - 1.  For any other value Go leaves the result to the
implementation; the embedding takes what the amd64 compiler produces, the
smallest `int`, -2^63. -/
def goInt (f : ℚ) : Int :=
  if -9223372036854775808 ≤ f.num.tdiv f.den ∧ f.num.tdiv f.den ≤ 9223372036854775807 then
    f.num.tdiv f.den
  else
    -9223372036854775808

/-! ## models/callback.go -/

/-- Go struct `models.Action`; the field `Type` is spelled `Type_` because
`Type` is reserved. -/
structure Action where
  Type_ : Int
  UserID : GoString
  deriving DecidableEq

/-- Go struct `models.User`. -/
structure User where
  Id : GoString
  Name : GoString
  Email : GoString
  Group : GoString
  ReviewGroups : List GoString
  CommentGroups : Option (List (GoString × Value))
  UserInfoGroups : List GoString
  Favorite : Int
  DeniedPermissions : List GoString
  Description : List GoString
  Templates : Bool
  Avatar : Bool
  deriving DecidableEq

/-- Go struct `models.Change`. -/
structure Change where
  Created : GoString
  User : User
  deriving DecidableEq

/-- Go struct `models.History`; `User` is a pointer, `none` when nil. -/
structure History where
  Changes : List Change
  ServerVersion : GoString
  Created : GoString
  Key : GoString
  User : Option User
  Version : Int
  deriving DecidableEq

/-- Go struct `models.Callback`. -/
structure Callback where
  Actions : List Action
  ChangesUrl : GoString
  History : History
  Key : GoString
  Status : Int
  Users : List GoString
  Url : GoString
  FileId : GoString
  Token : GoString
  Filename : GoString
  UserAddress : GoString
  deriving DecidableEq

/-! ## The token library (github.com/golang-jwt/jwt/v5) -/

/-- Families of signing methods of the token library; `HMAC` is the Go type
`*jwt.SigningMethodHMAC`. -/
inductive MethodFamily where
  | HMAC
  | RSA
  | RSAPSS
  | ECDSA
  | Ed25519
  | None
  deriving DecidableEq

/-- Signing method value `jwt.SigningMethod`: its family (the dynamic Go type)
and its `alg` name. -/
structure SigningMethod where
  Family : MethodFamily
  Alg : GoString
  deriving DecidableEq

/-- The method `jwt.SigningMethodHS256`. -/
def SigningMethodHS256 : SigningMethod := ⟨MethodFamily.HMAC, str "HS256"⟩

/-- Registered `alg` names and the family each belongs to. -/
def signingMethods : List (GoString × MethodFamily) :=
  [(str "HS256", .HMAC), (str "HS384", .HMAC), (str "HS512", .HMAC),
   (str "RS256", .RSA), (str "RS384", .RSA), (str "RS512", .RSA),
   (str "PS256", .RSAPSS), (str "PS384", .RSAPSS), (str "PS512", .RSAPSS),
   (str "ES256", .ECDSA), (str "ES384", .ECDSA), (str "ES512", .ECDSA),
   (str "EdDSA", .Ed25519), (str "none", .None)]

/-- Lookup `jwt.GetSigningMethod(alg)`; `none` for an unregistered name. -/
def GetSigningMethod (alg : GoString) : Option SigningMethod :=
  match signingMethods.find? (fun p => p.1 = alg) with
  | some p => some ⟨p.2, alg⟩
  | none => none

/-- What the three dot-separated segments of a compact token decode to: the
header's `alg` (when it is a string), the claim mapping, the signature bytes and
the signing input (the first two segments joined by a dot). -/
structure Segments where
  Alg : Option GoString
  Claims : MapClaims
  Signature : GoString
  SigningString : GoString
  deriving DecidableEq

/-- Go struct `jwt.Token`, with the header reduced to its `alg` entry. -/
structure Token where
  Raw : GoString
  Method : SigningMethod
  Alg : GoString
  Claims : MapClaims
  Signature : GoString
  Valid : Bool
  deriving DecidableEq

/-- Primitives of the token library that the embedding leaves abstract: the
segment codec, the signature check `Method.Verify` (true when it returns no
error), `Token.SignedString` for a fresh token with the given method and
claims, and whatever checks besides expiry the library applies to the claims at
a given time (true when they pass). -/
structure JWTLib where
  decode : GoString → Except GoError Segments
  verify : SigningMethod → GoString → GoString → GoString → Bool
  SignedString : SigningMethod → MapClaims → GoString → Except GoError GoString
  validateOther : ℚ → MapClaims → Bool

/-- Modelled from the spec: the expiry check of token verification, which is
part of the token library and not of the repository.  A token without `exp`
never expires; a numeric `exp` must lie after the current time `now` (Unix
seconds); an `exp` of any other type is rejected. -/
def validateExp (now : ℚ) (claims : MapClaims) : Except GoError Unit :=
  match index (some claims) (str "exp") with
  | Value.null => .ok ()
  | Value.number e =>
    if now < e then .ok () else .error (str "token has invalid claims: token is expired")
  | _ => .error (str "token has invalid claims: invalid type for claim")

/-- Modelled from the spec: `jwt.Parse(tokenString, keyFunc)` of the token
library, which is not part of the repository ("validates signature and algorithm
family, returns the claim mapping; fails if signature invalid, expired, or
algorithm mismatched").  The token is decoded, its `alg` resolved to a signing
method, the caller's key function consulted, the signature checked under the key
it returns, and the expiry and the library's remaining claim checks applied;
only then is the token marked valid. -/
def jwtParse (L : JWTLib) (now : ℚ) (tokenString : GoString)
    (keyFunc : Token → Except GoError GoString) : Except GoError Token :=
  match L.decode tokenString with
  | .error err => .error err
  | .ok seg =>
    match seg.Alg with
    | none => .error (str "token is malformed: signing method (alg) is unspecified")
    | some alg =>
      match GetSigningMethod alg with
      | none => .error (str "token is unverifiable: signing method (alg) is unavailable")
      | some method =>
        let token : Token :=
          ⟨tokenString, method, alg, seg.Claims, seg.Signature, false⟩
        match keyFunc token with
        | .error err =>
          .error (str "token is unverifiable: error while executing keyfunc: " ++ err)
        | .ok key =>
          if L.verify method seg.SigningString seg.Signature key = false then
            .error (str "token signature is invalid")
          else
            match validateExp now token.Claims with
            | .error err => .error err
            | .ok _ =>
              if L.validateOther now token.Claims = false then
                .error (str "token has invalid claims")
              else .ok { token with Valid := true }

/-! ## client.go -/

/-- Go struct `Config` (the `HTTPClient` handle is not part of the embedding). -/
structure Config where
  DocumentServerURL : GoString
  JWTSecret : GoString
  JWTEnabled : Bool
  deriving DecidableEq

/-- Go struct `Client` (the `http` handle is not part of the embedding). -/
structure Client where
  config : Config
  deriving DecidableEq

/-- The surroundings of a call: `json.Unmarshal(jsonData, &callback)` for a
`models.Callback`, the token library primitives, and the clock reading (Unix
seconds) at the time of the call. -/
structure Env where
  Unmarshal : GoString → Except GoError Callback
  jwt : JWTLib
  now : ℚ

/-- `Client.CreateToken`: the empty token and no error when token auth is off
or the secret is empty, otherwise an HS256 token signed with the secret. -/
def CreateToken (E : Env) (c : Client) (claims : MapClaims) : Except GoError GoString :=
  if c.config.JWTEnabled = false ∨ c.config.JWTSecret = [] then
    .ok []
  else
    E.jwt.SignedString SigningMethodHS256 claims c.config.JWTSecret

/-- The key function literal in `Client.ParseToken`: a method outside the HMAC
family is an error, otherwise the key is the configured secret. -/
def keyFunc (c : Client) (token : Token) : Except GoError GoString :=
  if token.Method.Family ≠ MethodFamily.HMAC then
    .error (str "unexpected signing method: " ++ token.Alg)
  else
    .ok c.config.JWTSecret

/-- `Client.ParseToken`; the result `(nil, nil)` is `.ok none`. -/
def ParseToken (E : Env) (c : Client) (tokenString : GoString) :
    Except GoError (Option MapClaims) :=
  if c.config.JWTEnabled = false then
    .ok none
  else
    match jwtParse E.jwt E.now tokenString (keyFunc c) with
    | .error err => .error err
    | .ok token =>
      if token.Valid then .ok (some token.Claims)
      else .error (str "invalid token")

/-! ## callback.go -/

/-- Lines 22-24 of `Client.ParseCallback`: one leading "Bearer " is removed
from a header longer than seven bytes. -/
def trimBearer (tokenHeader : GoString) : GoString :=
  if tokenHeader.length > 7 ∧ tokenHeader.take 7 = str "Bearer " then
    tokenHeader.drop 7
  else
    tokenHeader

/-- Lines 31-35 of `Client.ParseCallback`: a `float64` claim `status`
replaces the callback status. -/
def overlayStatus (claims : Option MapClaims) (callback : Callback) : Callback :=
  if index claims (str "status") ≠ Value.null then
    match index claims (str "status") with
    | Value.number status => { callback with Status := goInt status }
    | _ => callback
  else callback

/-- Lines 37-41 of `Client.ParseCallback`: a string claim `key` replaces the
callback key. -/
def overlayKey (claims : Option MapClaims) (callback : Callback) : Callback :=
  if index claims (str "key") ≠ Value.null then
    match index claims (str "key") with
    | Value.str key => { callback with Key := key }
    | _ => callback
  else callback

/-- `Client.ParseCallback`. -/
def ParseCallback (E : Env) (c : Client) (jsonData tokenHeader : GoString) :
    Except GoError Callback :=
  match E.Unmarshal jsonData with
  | .error err => .error err
  | .ok callback =>
    if c.config.JWTEnabled then
      if tokenHeader = [] then
        .error (str "missing token")
      else
        match ParseToken E c (trimBearer tokenHeader) with
        | .error err => .error err
        | .ok claims =>
          .ok { overlayKey claims (overlayStatus claims callback) with
                Token := trimBearer tokenHeader }
    else
      .ok { callback with Token := tokenHeader }

/-- `Client.ValidateCallback`. -/
def ValidateCallback (_c : Client) (callback : Callback) : Option GoError :=
  if callback.Status = 2 ∨ callback.Status = 6 then none
  else if callback.Status = 7 then some (str "document is corrupted")
  else some (str "unknown callback status")

/-! ## handler.go -/

/-- Go type `CallbackHandlerFunc`: the handler's returned error (`none` is nil);
whatever else a handler does is outside the receiver. -/
abbrev CallbackHandlerFunc := Callback → Option GoError

/-- Go struct `CallbackHandlers`; an unset (nil) handler is `none`. -/
structure CallbackHandlers where
  OnEditing : Option CallbackHandlerFunc
  OnSave : Option CallbackHandlerFunc
  OnSaveError : Option CallbackHandlerFunc
  OnClose : Option CallbackHandlerFunc
  OnForceSave : Option CallbackHandlerFunc
  OnCorrupt : Option CallbackHandlerFunc

/-- Names of the six fields of `CallbackHandlers`. -/
inductive Slot where
  | OnEditing
  | OnSave
  | OnSaveError
  | OnClose
  | OnForceSave
  | OnCorrupt
  deriving DecidableEq

/-- The handler stored in a field of `CallbackHandlers`. -/
def CallbackHandlers.get (hs : CallbackHandlers) : Slot → Option CallbackHandlerFunc
  | .OnEditing => hs.OnEditing
  | .OnSave => hs.OnSave
  | .OnSaveError => hs.OnSaveError
  | .OnClose => hs.OnClose
  | .OnForceSave => hs.OnForceSave
  | .OnCorrupt => hs.OnCorrupt

/-- Go struct `callbackHandler`. -/
structure callbackHandler where
  client : Client
  handlers : CallbackHandlers

/-- What the receiver reads of an `http.Request`: the method, the outcome of
`io.ReadAll(r.Body)` and `r.Header.Get("Authorization")`. -/
structure Request where
  Method : GoString
  Body : Except GoError GoString
  Authorization : GoString

/-- What the receiver writes: the `Content-Type` header, the status code and
the `map[string]int` handed to the JSON encoder. -/
structure Response where
  ContentType : GoString
  StatusCode : Nat
  Body : List (GoString × Int)
  deriving DecidableEq

/-- One handler invocation: the field the handler was taken from, the callback
passed to it and the error it returned. -/
structure Call where
  slot : Slot
  arg : Callback
  result : Option GoError
  deriving DecidableEq

/-- `callbackHandler.respondOK`. -/
def respondOK : Response :=
  ⟨str "application/json", 200, [(str "error", 0)]⟩

/-- `callbackHandler.respondError`. -/
def respondError (status : Nat) : Response :=
  ⟨str "application/json", status, [(str "error", 1)]⟩

/-- The `switch callback.Status` of `ServeHTTP`: the field the handler is read
from, `none` where no case applies. -/
def statusSlot (status : Int) : Option Slot :=
  if status = 1 then some .OnEditing
  else if status = 2 then some .OnSave
  else if status = 3 then some .OnSaveError
  else if status = 4 then some .OnClose
  else if status = 6 then some .OnForceSave
  else if status = 7 then some .OnCorrupt
  else none

/-- `callbackHandler.ServeHTTP`: the response written, and the handler
invocations made, in order. -/
def ServeHTTP (E : Env) (h : callbackHandler) (r : Request) : Response × List Call :=
  if r.Method ≠ str "POST" then
    (respondError 405, [])
  else
    match r.Body with
    | .error _ => (respondError 400, [])
    | .ok body =>
      match ParseCallback E h.client body r.Authorization with
      | .error _ => (respondError 401, [])
      | .ok callback =>
        match statusSlot callback.Status with
        | none => (respondOK, [])
        | some slot =>
          match h.handlers.get slot with
          | none => (respondOK, [])
          | some handler =>
            match handler callback with
            | some err => (respondError 500, [⟨slot, callback, some err⟩])
            | none => (respondOK, [⟨slot, callback, none⟩])

/-! ## Standard library services used by client.go -/

/-- Instant `time.Time`, as nanoseconds since the Unix epoch. -/
abbrev Time := Int

/-- Go `t.Unix()`: whole seconds since the epoch. -/
def Time.Unix (t : Time) : Int := t / 1000000000

/-- Go `time.Minute`, in nanoseconds. -/
def Minute : Int := 60 * 1000000000

/-- Standard library functions that the embedding leaves abstract:
`strings.Map(unicode.ToLower, s)` (the path `strings.ToLower` takes for a string
with a byte outside ASCII), the SHA-1 digest, `t.String()` and
`t.Format("2006-01-02 15:04:05")`. -/
structure Sys where
  MapToLower : GoString → GoString
  Sha1 : GoString → GoString
  TimeString : Time → GoString
  TimeFormat : Time → GoString

/-- Lower-casing of one ASCII byte: `A`..`Z` are moved to `a`..`z`. -/
def toLowerASCII (c : UInt8) : UInt8 :=
  if 65 ≤ c ∧ c ≤ 90 then c + 32 else c

/-- Go `strings.ToLower`: an all-ASCII string is lower-cased byte by byte, any
other string goes through the Unicode mapping. -/
def ToLower (S : Sys) (s : GoString) : GoString :=
  if s.all (fun c => decide (c < 128)) then s.map toLowerASCII else S.MapToLower s

/-- Go `strings.TrimPrefix(s, ".")`. -/
def TrimPrefixDot (s : GoString) : GoString :=
  match s with
  | [] => []
  | c :: rest => if c = 46 then rest else c :: rest

/-- Go `strings.LastIndex(s, sep)` for a one-byte separator: the index of the
last occurrence of the byte, and -1 when there is none. -/
def LastIndex (sep : UInt8) : GoString → Int
  | [] => -1
  | c :: rest =>
    if 0 ≤ LastIndex sep rest then LastIndex sep rest + 1
    else if c = sep then 0
    else -1

/-- Splitting of a byte string at every occurrence of a separator byte (Go
`strings.Split` with a one-byte separator). -/
def splitOnByte (sep : UInt8) : GoString → List GoString
  | [] => [[]]
  | b :: rest =>
    if b = sep then [] :: splitOnByte sep rest
    else
      match splitOnByte sep rest with
      | [] => [[b]]
      | p :: ps => (b :: p) :: ps

/-- Lower-case hexadecimal digit of a value below 16. -/
def hexDigit (n : UInt8) : UInt8 :=
  if n < 10 then 48 + n else 87 + n

/-- Go `hex.EncodeToString`. -/
def hexEncode : GoString → GoString
  | [] => []
  | b :: bs => hexDigit (b / 16) :: hexDigit (b % 16) :: hexEncode bs

/-- The calls `h := sha1.New(); h.Write(data)` followed by `h.Sum(nil)`: the
digest of the data.  `Write` of a `hash.Hash` never returns an error. -/
def sha1Write (S : Sys) (data : GoString) : Except GoError GoString :=
  .ok (S.Sha1 data)

/-! ## models/config.go -/

namespace models

/-- Go struct `models.MetaInfo`. -/
structure MetaInfo where
  Author : GoString
  Created : GoString
  Favorite : Value
  deriving DecidableEq

/-- Go struct `models.Permissions`. -/
structure Permissions where
  Chat : Bool
  Comment : Bool
  Download : Bool
  Edit : Bool
  FillForms : Bool
  Print : Bool
  Review : Bool
  Protect : Bool
  RewiewGroups : List GoString
  UserInfoGroups : List GoString
  CommentGroups : Option (List (GoString × Value))
  deriving DecidableEq

/-- Go struct `models.ReferenceData`. -/
structure ReferenceData where
  FileKey : GoString
  Link : Value
  deriving DecidableEq

/-- Go struct `models.Document`. -/
structure Document where
  FileType : GoString
  Key : GoString
  Title : GoString
  Url : GoString
  Info : MetaInfo
  Version : GoString
  Permissions : Permissions
  ReferenceData : ReferenceData
  deriving DecidableEq

/-- Go struct `models.UserInfo`. -/
structure UserInfo where
  Id : GoString
  Name : GoString
  Email : GoString
  Image : GoString
  deriving DecidableEq

/-- Go struct `models.Goback`. -/
structure Goback where
  RequestClose : Bool
  deriving DecidableEq

/-- Go struct `models.Customization`. -/
structure Customization where
  About : Bool
  Comments : Bool
  Feedback : Bool
  Forcesave : Bool
  SubmitForm : Bool
  Goback : Goback
  Close : Option (List (GoString × Value))
  deriving DecidableEq

/-- Go struct `models.Template`. -/
structure Template where
  Image : GoString
  Title : GoString
  Url : GoString
  deriving DecidableEq

/-- Go struct `models.EditorConfig`. -/
structure EditorConfig where
  User : UserInfo
  CallbackUrl : GoString
  Customization : Customization
  Lang : GoString
  Mode : GoString
  Templates : List Template
  deriving DecidableEq

/-- Go struct `models.Config`; the field `Type` is spelled `Type_`. -/
structure Config where
  Type_ : GoString
  Document : Document
  DocumentType : GoString
  EditorConfig : EditorConfig
  Token : GoString
  deriving DecidableEq

/-- Go struct `models.EditorParams`; the field `Type` is spelled `Type_`. -/
structure EditorParams where
  Filename : GoString
  Mode : GoString
  Type_ : GoString
  Language : GoString
  UserId : GoString
  UserName : GoString
  UserEmail : GoString
  CallbackUrl : GoString
  CanEdit : Bool
  CanDownload : Bool
  ReadOnly : Bool
  deriving DecidableEq

end models

/-! ## client.go, continued -/

/-- `Client.GenerateFileHash`, with the clock reading `now` of its
`time.Now()`. -/
def GenerateFileHash (S : Sys) (now : Time) (filename : GoString) :
    Except GoError GoString :=
  match sha1Write S (filename ++ S.TimeString now) with
  | .error err => .error err
  | .ok digest => .ok (hexEncode digest)

/-- `Client.getDocumentType`. -/
def getDocumentType (S : Sys) (ext : GoString) : GoString :=
  if ToLower S ext ∈ [str "docx", str "doc", str "odt", str "rtf", str "txt",
      str "html", str "htm", str "mht", str "pdf"] then str "text"
  else if ToLower S ext ∈ [str "xlsx", str "xls", str "ods", str "csv"] then
    str "spreadsheet"
  else if ToLower S ext ∈ [str "pptx", str "ppt", str "odp"] then str "presentation"
  else str "word"

/-- Lines 87-90 of `Client.BuildEditorConfig`: the file extension derived from
the file name. -/
def fileExt (S : Sys) (filename : GoString) : GoString :=
  if LastIndex 46 (TrimPrefixDot (ToLower S filename)) > 0 then
    (TrimPrefixDot (ToLower S filename)).drop
      (LastIndex 46 (TrimPrefixDot (ToLower S filename)) + 1).toNat
  else
    TrimPrefixDot (ToLower S filename)

/-- `Client.BuildEditorConfig`.  The function reads the clock up to three
times; `clock n` is the reading of its n-th call of `time.Now()` (in
`GenerateFileHash`, for `Info.Created`, and for the `exp` claim). -/
def BuildEditorConfig (S : Sys) (E : Env) (c : Client) (clock : Nat → Time)
    (params : models.EditorParams) (fileURL : GoString) : Except GoError models.Config :=
  if params.Filename = [] then
    .error (str "filename is required")
  else
    match GenerateFileHash S (clock 0) params.Filename with
    | .error err => .error err
    | .ok fileKey =>
      let cfg : models.Config :=
        { Type_ := str "desktop"
          DocumentType := getDocumentType S (fileExt S params.Filename)
          Document :=
            { FileType := fileExt S params.Filename
              Key := fileKey
              Title := params.Filename
              Url := fileURL
              Info := ⟨params.UserId, S.TimeFormat (clock 1), Value.null⟩
              Version := []
              Permissions :=
                { Chat := true, Comment := false, Download := params.CanDownload,
                  Edit := params.CanEdit, FillForms := true, Print := true,
                  Review := false, Protect := false, RewiewGroups := [],
                  UserInfoGroups := [], CommentGroups := none }
              ReferenceData := ⟨fileKey, Value.null⟩ }
          EditorConfig :=
            { User := ⟨params.UserId, params.UserName, params.UserEmail, []⟩
              CallbackUrl := params.CallbackUrl
              Lang := params.Language
              Mode := params.Mode
              Customization :=
                { About := true, Comments := false, Feedback := true, Forcesave := false,
                  SubmitForm := false, Goback := ⟨false⟩, Close := none }
              Templates := [] }
          Token := [] }
      if c.config.JWTEnabled then
        match CreateToken E c
          [(str "document", Value.object [(str "key", Value.str fileKey),
              (str "url", Value.str fileURL),
              (str "fileType", Value.str (fileExt S params.Filename))]),
           (str "editorConfig", Value.object
              [(str "user", Value.object [(str "id", Value.str params.UserId)])]),
           (str "exp", Value.number (Time.Unix (clock 2 + 5 * Minute) : Int))] with
        | .error err => .error err
        | .ok token => .ok { cfg with Token := token }
      else
        .ok cfg

/-! ## conversion.go -/

/-- Go struct `ConvertOptions`. -/
structure ConvertOptions where
  DocumentURL : GoString
  FromExt : GoString
  ToExt : GoString
  DocumentKey : GoString
  Async : Bool
  Title : GoString
  deriving DecidableEq

/-- Go struct `ConvertResult`. -/
structure ConvertResult where
  FileURL : GoString
  FileType : GoString
  Percent : Int
  IsEnd : Bool
  Error : Int
  Key : GoString
  deriving DecidableEq

/-- What `ConvertDocument` puts into its `http.Request`: method, URL, body and
the headers it sets. -/
structure HTTPRequest where
  Method : GoString
  URL : GoString
  Body : GoString
  Header : List (GoString × GoString)
  deriving DecidableEq

/-- What `ConvertDocument` reads of the `http.Response`: the status code and
the outcome of `io.ReadAll(resp.Body)`. -/
structure HTTPReply where
  StatusCode : Int
  Body : Except GoError GoString

/-- The JSON encoder, the HTTP transport and the JSON decoder behind
`ConvertDocument`, left abstract: `json.Marshal(payload)`, the error (if any)
`http.NewRequest` reports for a method and URL, `c.http.Do(req)`, and
`json.Unmarshal(body, &result)` for a `ConvertResult`. -/
structure Net where
  Marshal : List (GoString × Value) → Except GoError GoString
  requestError : GoString → GoString → Option GoError
  Do : HTTPRequest → Except GoError HTTPReply
  UnmarshalResult : GoString → Except GoError ConvertResult

/-- Go `http.NewRequest(method, url, body)`: a request without headers, unless
the method or URL is refused. -/
def NewRequest (N : Net) (method url body : GoString) : Except GoError HTTPRequest :=
  match N.requestError method url with
  | some err => .error err
  | none => .ok ⟨method, url, body, []⟩

/-- Go `req.Header.Set(key, value)`. -/
def HTTPRequest.setHeader (req : HTTPRequest) (key value : GoString) : HTTPRequest :=
  { req with Header := req.Header.filter (fun p => p.1 ≠ key) ++ [(key, value)] }

/-- The function `getExtension`. -/
def getExtension (filename : GoString) : GoString :=
  if (splitOnByte 46 filename).length > 1 then
    (splitOnByte 46 filename).getLastD []
  else
    []

/-- Lines 32-34 of `ConvertDocument`: an empty `FromExt` is replaced by the
extension of the document URL. -/
def inferFromExt (opts : ConvertOptions) : ConvertOptions :=
  if opts.FromExt = [] then { opts with FromExt := getExtension opts.DocumentURL }
  else opts

/-- Lines 38-48 of `ConvertDocument`: the payload map. -/
def convertPayload (opts : ConvertOptions) : List (GoString × Value) :=
  [(str "url", Value.str opts.DocumentURL),
   (str "outputtype", Value.str opts.ToExt),
   (str "filetype", Value.str opts.FromExt),
   (str "title", Value.str opts.Title),
   (str "key", Value.str opts.DocumentKey),
   (str "async", Value.bool opts.Async),
   (str "region", Value.str (str "en")),
   (str "embedded", Value.bool false),
   (str "canDownload", Value.bool true)]

/-- Lines 50-56 of `ConvertDocument`: with token auth enabled the payload is
signed and the token stored under "token". -/
def signPayload (E : Env) (c : Client) (payload : List (GoString × Value)) :
    Except GoError (List (GoString × Value)) :=
  if c.config.JWTEnabled then
    match CreateToken E c payload with
    | .error err => .error err
    | .ok token =>
      .ok (payload.filter (fun p => p.1 ≠ str "token") ++ [(str "token", Value.str token)])
  else
    .ok payload

/-- Lines 58-69 of `ConvertDocument`: the request that is sent. -/
def convertRequest (N : Net) (c : Client) (payload : List (GoString × Value)) :
    Except GoError HTTPRequest :=
  match N.Marshal payload with
  | .error err => .error err
  | .ok jsonData =>
    match NewRequest N (str "POST")
        (c.config.DocumentServerURL ++ str "/ConvertService.ashx") jsonData with
    | .error err => .error err
    | .ok req =>
      .ok ((req.setHeader (str "Content-Type") (str "application/json")).setHeader
        (str "Accept") (str "application/json"))

/-- `Client.ConvertDocument`. -/
def ConvertDocument (N : Net) (E : Env) (c : Client) (opts : ConvertOptions) :
    Except GoError ConvertResult :=
  match signPayload E c (convertPayload (inferFromExt opts)) with
  | .error err => .error err
  | .ok payload =>
    match convertRequest N c payload with
    | .error err => .error err
    | .ok req =>
      match N.Do req with
      | .error err => .error err
      | .ok resp =>
        match resp.Body with
        | .error err => .error err
        | .ok body =>
          if resp.StatusCode ≠ 200 then
            .error (str "conversion failed with status " ++ str (toString resp.StatusCode)
              ++ str ": " ++ body)
          else
            match N.UnmarshalResult body with
            | .error err => .error err
            | .ok result => .ok result

/-- The map literal `convertibleExts` of `Client.CanConvert`. -/
def convertibleExts : List (GoString × Bool) :=
  [(str "doc", true), (str "docx", true), (str "odt", true), (str "rtf", true),
   (str "xls", true), (str "xlsx", true), (str "ods", true), (str "csv", true),
   (str "ppt", true), (str "pptx", true), (str "odp", true),
   (str "pdf", true), (str "txt", true), (str "html", true), (str "htm", true)]

/-- `Client.CanConvert`: the map entry for the lower-cased extension, `false`
when there is none. -/
def CanConvert (S : Sys) (ext : GoString) : Bool :=
  match convertibleExts.find? (fun p => p.1 = ToLower S ext) with
  | some p => p.2
  | none => false

/-- `Client.GetInternalExtension`. -/
def GetInternalExtension (S : Sys) (ext : GoString) : GoString :=
  if ToLower S ext ∈ [str "doc", str "odt", str "rtf"] then str "docx"
  else if ToLower S ext ∈ [str "xls", str "ods", str "csv"] then str "xlsx"
  else if ToLower S ext ∈ [str "ppt", str "odp"] then str "pptx"
  else ext

/-! ## The file system behind history.go

Storage is a tree of directories and files.  A path is the list of its
components below the root of the tree; a storage root is given by the path of
the directory it resolves to.  Permissions, links and device errors are not
part of the model. -/

/-- A file with its contents, or a directory with its entries by name (in no
particular order). -/
inductive Node where
  | file (data : GoString)
  | dir (entries : List (GoString × Node))

/-- Resolved path: the components below the root directory. -/
abbrev Path := List GoString

/-- The two ways a path can fail to resolve: a component is missing (`ENOENT`,
the case `os.IsNotExist` recognises), or a component that has to be a
directory is a file (`ENOTDIR`). -/
inductive Errno where
  | notExist
  | notDir
  deriving DecidableEq

/-- Message of the error the operating system reports. -/
def Errno.msg : Errno → GoError
  | .notExist => str "no such file or directory"
  | .notDir => str "not a directory"

/-- The entry of a directory with the given name. -/
def lookupEntry : List (GoString × Node) → GoString → Option Node
  | [], _ => none
  | (n, x) :: es, name => if n = name then some x else lookupEntry es name

/-- The directory entries with the entry of the given name replaced, or added
when there is none. -/
def setEntry : List (GoString × Node) → GoString → Node → List (GoString × Node)
  | [], name, x => [(name, x)]
  | (n, y) :: es, name, x =>
    if n = name then (n, x) :: es else (n, y) :: setEntry es name x

/-- Resolution of a path from a node. -/
def walk : Node → Path → Except Errno Node
  | n, [] => .ok n
  | .file _, _ :: _ => .error .notDir
  | .dir es, c :: rest =>
    match lookupEntry es c with
    | none => .error .notExist
    | some child => walk child rest

/-- The tree with the node at a path replaced (unchanged when the path does
not resolve). -/
def graft : Node → Path → Node → Node
  | _, [], new => new
  | .file d, _ :: _, _ => .file d
  | .dir es, c :: rest, new =>
    match lookupEntry es c with
    | none => .dir es
    | some child => .dir (setEntry es c (graft child rest new))

/-- Go `os.MkdirAll(path, 0755)`: every missing directory along the path is
created; a file in the way is an error, and then nothing is changed. -/
def mkdirAll : Node → Path → Except GoError Node
  | .file _, _ => .error Errno.notDir.msg
  | .dir es, [] => .ok (.dir es)
  | .dir es, c :: rest =>
    match mkdirAll ((lookupEntry es c).getD (.dir [])) rest with
    | .error err => .error err
    | .ok child => .ok (.dir (setEntry es c child))

/-- Go `os.WriteFile(name, data, 0644)`: the file is created or replaced; the
directory that holds it has to exist, and the name must not be a directory. -/
def writeFile : Node → Path → GoString → Except GoError Node
  | _, [], _ => .error (str "is a directory")
  | .file _, _ :: _, _ => .error Errno.notDir.msg
  | .dir es, [name], data =>
    match lookupEntry es name with
    | some (.dir _) => .error (str "is a directory")
    | _ => .ok (.dir (setEntry es name (.file data)))
  | .dir es, c :: d :: rest, data =>
    match lookupEntry es c with
    | none => .error Errno.notExist.msg
    | some child =>
      match writeFile child (d :: rest) data with
      | .error err => .error err
      | .ok child2 => .ok (.dir (setEntry es c child2))

/-- Go `os.ReadFile(name)`. -/
def readFile (fs : Node) (name : Path) : Except GoError GoString :=
  match walk fs name with
  | .error e => .error e.msg
  | .ok (.dir _) => .error (str "is a directory")
  | .ok (.file data) => .ok data

/-- The test `_, err := os.Stat(name); os.IsNotExist(err)`. -/
def statIsNotExist (fs : Node) (name : Path) : Bool :=
  match walk fs name with
  | .error .notExist => true
  | _ => false

/-- Go `fs.DirEntry`, as far as `GetHistory` looks at it. -/
structure DirEntry where
  Name : GoString
  IsDir : Bool
  deriving DecidableEq

/-- Whether a node is a directory. -/
def Node.isDir : Node → Bool
  | .dir _ => true
  | .file _ => false

/-- Go string comparison `a <= b` (byte-wise lexicographic). -/
def nameLE : GoString → GoString → Bool
  | [], _ => true
  | _ :: _, [] => false
  | a :: as, b :: bs => if a < b then true else if b < a then false else nameLE as bs

/-- Insertion of a directory entry into a list sorted by name. -/
def insertEntry (e : DirEntry) : List DirEntry → List DirEntry
  | [] => [e]
  | x :: xs => if nameLE e.Name x.Name then e :: x :: xs else x :: insertEntry e xs

/-- Directory entries sorted by name. -/
def sortEntries : List DirEntry → List DirEntry
  | [] => []
  | e :: es => insertEntry e (sortEntries es)

/-- Go `os.ReadDir(name)`: the entries of the directory, sorted by file
name. -/
def readDir (fs : Node) (name : Path) : Except GoError (List DirEntry) :=
  match walk fs name with
  | .error e => .error e.msg
  | .ok (.file _) => .error Errno.notDir.msg
  | .ok (.dir es) => .ok (sortEntries (es.map (fun e => ⟨e.1, e.2.isDir⟩)))

/-- One further element of `filepath.Join`: the element is split at the
separator; empty components and "." are dropped, ".." removes the last
component so far, anything else is appended. -/
def joinElem (base : Path) (elem : GoString) : Path :=
  (splitOnByte 47 elem).foldl
    (fun stack comp =>
      if comp = [] ∨ comp = str "." then stack
      else if comp = str ".." then stack.dropLast
      else stack ++ [comp])
    base

/-- Go `filepath.Join(first, elems...)` where `first` resolves to the directory
`base`. -/
def Join (base : Path) (elems : List GoString) : Path :=
  elems.foldl joinElem base

/-! ## history.go -/

/-- Go struct `HistoryVersion`. -/
structure HistoryVersion where
  Version : GoString
  Key : GoString
  Created : Time
  User : Option User
  ChangesData : List Change
  deriving DecidableEq

/-- The zero value `time.Time` (January 1 of year 1, UTC). -/
def zeroTime : Time := -62135596800 * 1000000000

/-- The JSON and time functions behind history.go, left abstract:
`json.MarshalIndent(history, "", "  ")`, `json.Unmarshal(data, &history)` for a
`models.History`, and `time.Parse("2006-01-02 15:04:05", s)`. -/
structure HistoryCodec where
  MarshalIndent : History → Except GoError GoString
  Unmarshal : GoString → Except GoError History
  ParseTime : GoString → Except GoError Time

/-- `Client.CreateHistory`: the storage after the call and the error
returned (`none` is nil). -/
def CreateHistory (J : HistoryCodec) (fs : Node) (callback : Callback)
    (storagePath : Path) : Node × Option GoError :=
  match mkdirAll fs (Join storagePath [str ".history", callback.Key]) with
  | .error err => (fs, some err)
  | .ok fs1 =>
    match J.MarshalIndent callback.History with
    | .error err => (fs1, some err)
    | .ok data =>
      match writeFile fs1
          (Join (Join storagePath [str ".history", callback.Key]) [str "changes.json"])
          data with
      | .error err => (fs1, some err)
      | .ok fs2 => (fs2, none)

/-- The loop of `Client.GetHistory` over the directory entries, with the
versions collected so far. -/
def historyLoop (J : HistoryCodec) (fs : Node) (historyDir : Path) :
    List DirEntry → List HistoryVersion → List HistoryVersion
  | [], versions => versions
  | file :: files, versions =>
    if file.IsDir then
      match readFile fs (Join historyDir [file.Name, str "changes.json"]) with
      | .ok data =>
        match J.Unmarshal data with
        | .ok history =>
          historyLoop J fs historyDir files
            (versions ++ [⟨file.Name, history.Key,
              match J.ParseTime history.Created with
              | .ok created => created
              | .error _ => zeroTime,
              history.User, history.Changes⟩])
        | .error _ => historyLoop J fs historyDir files versions
      | .error _ => historyLoop J fs historyDir files versions
    else historyLoop J fs historyDir files versions

/-- `Client.GetHistory`. -/
def GetHistory (J : HistoryCodec) (fs : Node) (_filename : GoString)
    (storagePath : Path) : Except GoError (List HistoryVersion) :=
  if statIsNotExist fs (Join storagePath [str ".history"]) then
    .ok []
  else
    match readDir fs (Join storagePath [str ".history"]) with
    | .error err => .error err
    | .ok files => .ok (historyLoop J fs (Join storagePath [str ".history"]) files [])

/-- `Client.CountVersion`. -/
def CountVersion (fs : Node) (storagePath : Path) : Int :=
  if statIsNotExist fs (Join storagePath [str ".history"]) then 0
  else
    match readDir fs (Join storagePath [str ".history"]) with
    | .error _ => 0
    | .ok files => ((files.filter (fun file => file.IsDir)).length : Int)

/-! ## A reference environment for concrete runs

A transparent, non-cryptographic instance of the library primitives: a token is
`alg.name.signature`, where `name` stands for one of a few fixed claim mappings
and the signature is the key followed by the signing input, dots replaced by
dashes.  It serves to run the code on explicit inputs. -/

/-- Claim mappings known to the reference codec, by name. -/
def demoClaims : List (GoString × MapClaims) :=
  [(str "save", [(str "status", Value.number 2), (str "key", Value.str (str "doc-7"))]),
   (str "force", [(str "status", Value.number 6), (str "key", Value.str (str "doc-7")),
                  (str "exp", Value.number 2000)]),
   (str "old", [(str "status", Value.number 2), (str "exp", Value.number 100)]),
   (str "bare", [(str "url", Value.str (str "http://x/f.docx"))])]

/-- Signature of the reference codec. -/
def demoMac (key text : GoString) : GoString :=
  (key ++ text).map (fun b => if b = 46 then 45 else b)

/-- Segment decoding of the reference codec. -/
def demoDecode (tokenString : GoString) : Except GoError Segments :=
  match splitOnByte 46 tokenString with
  | [alg, name, sig] =>
    match demoClaims.find? (fun p => p.1 = name) with
    | some p => .ok ⟨some alg, p.2, sig, alg ++ [46] ++ name⟩
    | none => .error (str "token is malformed: could not decode claim")
  | _ => .error (str "token is malformed: token contains an invalid number of segments")

/-- Signing of the reference codec. -/
def demoSignedString (m : SigningMethod) (claims : MapClaims) (key : GoString) :
    Except GoError GoString :=
  match demoClaims.find? (fun p => p.2 = claims) with
  | some p => .ok (m.Alg ++ [46] ++ p.1 ++ [46] ++ demoMac key (m.Alg ++ [46] ++ p.1))
  | none => .error (str "unsupported claims")

/-- The reference instance of the library primitives. -/
def demoJWT : JWTLib :=
  ⟨demoDecode, fun _ text sig key => decide (sig = demoMac key text), demoSignedString,
   fun _ _ => true⟩

/-- The callback of the body with status 2, key "k1" and url "http://x/f.docx". -/
def demoSaveCallback : Callback :=
  ⟨[], [], ⟨[], [], [], [], none, 0⟩, str "k1", 2, [], str "http://x/f.docx", [], [], [], []⟩

/-- Reference decoding of request bodies: two JSON objects are known, every
other body is a syntax error. -/
def demoUnmarshal (jsonData : GoString) : Except GoError Callback :=
  if jsonData = str "\x7b\"status\":2,\"key\":\"k1\",\"url\":\"http://x/f.docx\"\x7d" then
    .ok demoSaveCallback
  else if jsonData = str "\x7b\"status\":7\x7d" then
    .ok { demoSaveCallback with Key := [], Status := 7, Url := [] }
  else .error (str "invalid character")

/-- The reference environment, at clock reading 1000. -/
def demoEnv : Env := ⟨demoUnmarshal, demoJWT, 1000⟩

/-- Request body with status 2, key "k1" and url "http://x/f.docx". -/
def demoSaveBody : GoString :=
  str "\x7b\"status\":2,\"key\":\"k1\",\"url\":\"http://x/f.docx\"\x7d"

/-- Request body with status 7 only. -/
def demoCorruptBody : GoString := str "\x7b\"status\":7\x7d"

/-- A client with token auth enabled and secret "s3cret". -/
def demoClient : Client := ⟨⟨str "https://example.com", str "s3cret", true⟩⟩

/-- A client with token auth enabled and an empty secret. -/
def emptySecretClient : Client := ⟨⟨str "https://example.com", [], true⟩⟩

/-- A client with token auth disabled. -/
def openClient : Client := ⟨⟨str "https://example.com", [], false⟩⟩

/-- The claim mapping named "force": status 6, key "doc-7", expiry 2000. -/
def demoForceClaims : MapClaims :=
  [(str "status", Value.number 6), (str "key", Value.str (str "doc-7")),
   (str "exp", Value.number 2000)]

/-- The reference token for `demoForceClaims` under the secret "s3cret". -/
def demoForceToken : GoString := str "HS256.force.s3cretHS256-force"

/-- Handlers registered in all six fields, each returning no error. -/
def quietHandlers : CallbackHandlers :=
  ⟨some (fun _ => none), some (fun _ => none), some (fun _ => none),
   some (fun _ => none), some (fun _ => none), some (fun _ => none)⟩

/-- Handlers registered in all six fields, each returning an error. -/
def failingHandlers : CallbackHandlers :=
  ⟨some (fun _ => some (str "disk full")), some (fun _ => some (str "disk full")),
   some (fun _ => some (str "disk full")), some (fun _ => some (str "disk full")),
   some (fun _ => some (str "disk full")), some (fun _ => some (str "disk full"))⟩

/-- No handler registered at all. -/
def noHandlers : CallbackHandlers := ⟨none, none, none, none, none, none⟩

/-- Reference instance of the standard library services: strings with a byte
outside ASCII are left as they are by lower-casing, the digest is the first
twenty bytes of the data padded with zeros, and an instant is printed as its
number of nanoseconds. -/
def demoSys : Sys :=
  ⟨fun s => s, fun data => (data ++ List.replicate 20 0).take 20,
   fun t => str (toString t), fun t => str (toString t)⟩

/-- Reference clock: the n-th reading is n seconds after 1700000000. -/
def demoClock (n : Nat) : Time := (1700000000 + (n : Int)) * 1000000000

/-- Editor parameters for a file name, user "user1", edit mode, with editing
allowed and download denied. -/
def demoParams (filename : GoString) : models.EditorParams :=
  ⟨filename, str "edit", [], str "en", str "user1", str "Test User",
   str "test@example.com", str "https://example.com/callback", true, false, false⟩

/-- Body of the reference conversion reply: a result with error code -4. -/
def demoResultBody : GoString := str "\x7b\"error\":-4\x7d"

/-- Reference transport: the payload is encoded as the fixed text "payload",
every method and URL is accepted, the server at "https://example.com" answers
200 with `demoResultBody` and every other server answers 503 with "busy". -/
def demoNet : Net :=
  ⟨fun _ => .ok (str "payload"), fun _ _ => none,
   fun req =>
     if req.URL = str "https://example.com/ConvertService.ashx" then
       .ok ⟨200, .ok demoResultBody⟩
     else .ok ⟨503, .ok (str "busy")⟩,
   fun body =>
     if body = demoResultBody then .ok ⟨[], [], 0, false, -4, []⟩
     else .error (str "invalid character")⟩

/-- A client with token auth disabled whose document server is down. -/
def downClient : Client := ⟨⟨str "https://down.example.com", [], false⟩⟩

/-- Conversion options for a document URL, without source extension, to pdf. -/
def demoConvert (url : GoString) : ConvertOptions :=
  ⟨url, [], str "pdf", str "key-1", false, str "report"⟩

/-- A history record created at "2024-01-02 03:04:05". -/
def demoHistory1 : History :=
  ⟨[], str "7.5.1", str "2024-01-02 03:04:05", str "h-1", none, 0⟩

/-- A history record created at "2024-05-06 07:08:09". -/
def demoHistory2 : History :=
  ⟨[], str "7.5.1", str "2024-05-06 07:08:09", str "h-2", none, 0⟩

/-- Reference codec for history.go: the two reference records are encoded as
the texts "history-1" and "history-2" and decoded from them, nothing else is
handled; the two reference timestamps are parsed to their instants. -/
def demoCodec : HistoryCodec :=
  ⟨fun h =>
     if h = demoHistory1 then .ok (str "history-1")
     else if h = demoHistory2 then .ok (str "history-2")
     else .error (str "unsupported value"),
   fun data =>
     if data = str "history-1" then .ok demoHistory1
     else if data = str "history-2" then .ok demoHistory2
     else .error (str "invalid character"),
   fun s =>
     if s = str "2024-01-02 03:04:05" then .ok (1704164645 * 1000000000)
     else if s = str "2024-05-06 07:08:09" then .ok (1714979289 * 1000000000)
     else .error (str "parsing time: cannot parse")⟩

/-- A file system whose only content is the empty directory "data". -/
def demoStorage : Node := Node.dir [(str "data", Node.dir [])]

/-- The callback with the given key and history record. -/
def historyCallback (key : GoString) (history : History) : Callback :=
  { demoSaveCallback with Key := key, History := history }

/-- A storage root "data" whose ".history" holds the directory "k1" with a
decodable changes file, the directory "k0" whose changes file does not decode,
the empty directory "k2" and the file "notes.txt". -/
def demoStorageMixed : Node :=
  Node.dir [(str "data", Node.dir [(str ".history", Node.dir
    [(str "k2", Node.dir []),
     (str "k1", Node.dir [(str "changes.json", Node.file (str "history-1"))]),
     (str "notes.txt", Node.file (str "hello")),
     (str "k0", Node.dir [(str "changes.json", Node.file (str "garbage"))])])])]

/-- A storage root "data" whose ".history" holds only the empty directory
"k1". -/
def demoStorageBare : Node :=
  Node.dir [(str "data", Node.dir [(str ".history", Node.dir [(str "k1", Node.dir [])])])]

/-- The number -5/2. -/
def minusTwoAndHalf : ℚ := Rat.mk' (-5) 2 (by decide) (by decide)

/-- A token library that accepts every token string as an HS256 token whose
only claim is the status -5/2. -/
def fractionJWT : JWTLib :=
  ⟨fun _ => .ok ⟨some (str "HS256"), [(str "status", Value.number minusTwoAndHalf)], [], []⟩,
   fun _ _ _ _ => true, fun _ _ _ => .error (str "unsupported claims"), fun _ _ => true⟩

/-- The reference environment with the library `fractionJWT`. -/
def fractionEnv : Env := ⟨demoUnmarshal, fractionJWT, 1000⟩

/-- A token library that accepts every token string as an HS256 token whose
only claim is the status 10^19. -/
def hugeJWT : JWTLib :=
  ⟨fun _ => .ok ⟨some (str "HS256"),
      [(str "status", Value.number 10000000000000000000)], [], []⟩,
   fun _ _ _ _ => true, fun _ _ _ => .error (str "unsupported claims"), fun _ _ => true⟩

/-- The reference environment with the library `hugeJWT`. -/
def hugeEnv : Env := ⟨demoUnmarshal, hugeJWT, 1000⟩

/-- Reference decoding of the request bodies that consist of a status of one
decimal digit and nothing else, such as the body with status 3: the callback
with that status and all other fields empty; every other body is an error. -/
def statusUnmarshal (jsonData : GoString) : Except GoError Callback :=
  match jsonData.drop 10 with
  | [d, 125] =>
    if jsonData.take 10 = str "\x7b\"status\":" ∧ 48 ≤ d ∧ d ≤ 57 then
      .ok ⟨[], [], ⟨[], [], [], [], none, 0⟩, [], (d.toNat : Int) - 48, [], [], [], [], [],
        []⟩
    else .error (str "invalid character")
  | _ => .error (str "invalid character")

/-- The reference environment with the decoder `statusUnmarshal`. -/
def statusEnv : Env := ⟨statusUnmarshal, demoJWT, 1000⟩

/-- The request body that carries the given status digit and nothing else. -/
def statusBody (digit : UInt8) : GoString := str "\x7b\"status\":" ++ [digit, 125]

/-- The callback that `statusUnmarshal` decodes for a status. -/
def statusCallback (status : Int) : Callback :=
  ⟨[], [], ⟨[], [], [], [], none, 0⟩, [], status, [], [], [], [], [], []⟩

/-- Handlers registered in all six fields, each returning an error that names
its own field. -/
def namedHandlers : CallbackHandlers :=
  ⟨some (fun _ => some (str "editing")), some (fun _ => some (str "save")),
   some (fun _ => some (str "save-error")), some (fun _ => some (str "close")),
   some (fun _ => some (str "force-save")), some (fun _ => some (str "corrupt"))⟩

/-! ## Notions used to state the properties -/

/-- The token's signature verifies under the key: the token decodes, its `alg`
names a registered method, and that method accepts the signature. -/
def signatureVerifies (L : JWTLib) (key tokenString : GoString) : Bool :=
  match L.decode tokenString with
  | .error _ => false
  | .ok seg =>
    match seg.Alg.bind GetSigningMethod with
    | none => false
    | some method => L.verify method seg.SigningString seg.Signature key

/-- The token carries a numeric `exp` claim that lies before `now`. -/
def expInPast (L : JWTLib) (now : ℚ) (tokenString : GoString) : Bool :=
  match L.decode tokenString with
  | .error _ => false
  | .ok seg =>
    match index (some seg.Claims) (str "exp") with
    | Value.number e => decide (e < now)
    | _ => false

/-- The family of the method named by the token header's `alg`, when the token
decodes and the name is registered. -/
def algFamily (L : JWTLib) (tokenString : GoString) : Option MethodFamily :=
  match L.decode tokenString with
  | .error _ => none
  | .ok seg => (seg.Alg.bind GetSigningMethod).map (fun m => m.Family)

/-- The composition `ParseToken(CreateToken(claims))` on one client. -/
def roundTrip (E : Env) (c : Client) (claims : MapClaims) :
    Except GoError (Option MapClaims) :=
  match CreateToken E c claims with
  | .error err => .error err
  | .ok token => ParseToken E c token

/-- The library's own contract at one claim mapping, key and time: the HS256
token it signs decodes to the same claims under the `alg` name HS256, its
signature verifies under the same key, and the claims pass the library's checks
other than expiry. -/
def SignVerifyContract (L : JWTLib) (now : ℚ) (claims : MapClaims) (key : GoString) :
    Prop :=
  ∃ token seg, L.SignedString SigningMethodHS256 claims key = .ok token ∧
    L.decode token = .ok seg ∧ seg.Alg = some (str "HS256") ∧ seg.Claims = claims ∧
    L.verify SigningMethodHS256 seg.SigningString seg.Signature key = true ∧
    L.validateOther now claims = true

/-- The claim set that the specification prescribes for a configuration
token: the document key, URL and file type, the editor user id, and the
expiry. -/
def configClaims (key url fileType userId : GoString) (exp : Int) : MapClaims :=
  [(str "document", Value.object [(str "key", Value.str key), (str "url", Value.str url),
      (str "fileType", Value.str fileType)]),
   (str "editorConfig", Value.object
      [(str "user", Value.object [(str "id", Value.str userId)])]),
   (str "exp", Value.number exp)]

/-- A token library that signs every claim set, with the fixed token
"signed" (see `signEnv`). -/
def signingJWT : JWTLib :=
  ⟨demoDecode, fun _ _ _ _ => false, fun _ _ _ => .ok (str "signed"), fun _ _ => true⟩

/-- The reference environment with the library that signs every claim set. -/
def signEnv : Env := ⟨demoUnmarshal, signingJWT, 1000⟩

/-- The byte is a lower-case hexadecimal digit, `0`..`9` or `a`..`f`. -/
def isLowerHex (c : UInt8) : Bool :=
  (decide (48 ≤ c) && decide (c ≤ 57)) || (decide (97 ≤ c) && decide (c ≤ 102))

/-- The directory entry is a subdirectory whose "changes.json" can be read and
decodes as a history record. -/
def hasVersion (J : HistoryCodec) (fs : Node) (historyDir : Path) (file : DirEntry) :
    Bool :=
  file.IsDir &&
    match readFile fs (Join historyDir [file.Name, str "changes.json"]) with
    | .ok data =>
      match J.Unmarshal data with
      | .ok _ => true
      | .error _ => false
    | .error _ => false

/-! ## Properties -/

/-- Truncation of a non-negative number: the greatest integer not above it. -/
theorem tdiv_nonneg_spec (s : ℚ) (h : 0 ≤ s) :
    ((s.num.tdiv s.den : Int) : ℚ) ≤ s ∧ s < (s.num.tdiv s.den : Int) + 1 := by
  have hnum : 0 ≤ s.num := Rat.num_nonneg.mpr h
  have hden : (0 : Int) ≤ (s.den : Int) := Int.ofNat_nonneg _
  have hfl : s.num.tdiv s.den = ⌊s⌋ := by
    rw [Int.tdiv_eq_ediv hnum hden, Rat.floor_def]
  rw [hfl]
  exact ⟨Int.floor_le s, Int.lt_floor_add_one s⟩

/-- Truncation of a non-positive number: the least integer not below it. -/
theorem tdiv_nonpos_spec (s : ℚ) (h : s ≤ 0) :
    s ≤ ((s.num.tdiv s.den : Int) : ℚ) ∧ ((s.num.tdiv s.den : Int) : ℚ) - 1 < s := by
  have h0 : 0 ≤ -s := neg_nonneg.mpr h
  obtain ⟨h1, h2⟩ := tdiv_nonneg_spec (-s) h0
  have hneg : (-s).num.tdiv (-s).den = -(s.num.tdiv s.den) := by
    rw [Rat.num_neg_eq_neg_num, Rat.den_neg_eq_den, Int.neg_tdiv]
  rw [hneg] at h1 h2
  push_cast at h1 h2
  constructor <;> linarith

/-- Effect of the status overlay when the claim is a number. -/
theorem overlayStatus_number (claims : Option MapClaims) (cb : Callback) (s : ℚ)
    (hs : index claims (str "status") = Value.number s) :
    overlayStatus claims cb = { cb with Status := goInt s } := by
  simp [overlayStatus, hs]

/-- The status overlay leaves the callback alone when the claim is absent. -/
theorem overlayStatus_null (claims : Option MapClaims) (cb : Callback)
    (hs : index claims (str "status") = Value.null) :
    overlayStatus claims cb = cb := by
  simp [overlayStatus, hs]

/-- Effect of the key overlay when the claim is a string. -/
theorem overlayKey_str (claims : Option MapClaims) (cb : Callback) (k : GoString)
    (hk : index claims (str "key") = Value.str k) :
    overlayKey claims cb = { cb with Key := k } := by
  simp [overlayKey, hk]

/-- The key overlay leaves the callback alone when the claim is absent. -/
theorem overlayKey_null (claims : Option MapClaims) (cb : Callback)
    (hk : index claims (str "key") = Value.null) :
    overlayKey claims cb = cb := by
  simp [overlayKey, hk]

/-- The status overlay changes no field other than `Status`. -/
theorem overlayStatus_others (claims : Option MapClaims) (cb : Callback) :
    (overlayStatus claims cb).Key = cb.Key ∧
    (overlayStatus claims cb).Url = cb.Url ∧
    (overlayStatus claims cb).ChangesUrl = cb.ChangesUrl ∧
    (overlayStatus claims cb).Users = cb.Users ∧
    (overlayStatus claims cb).Actions = cb.Actions ∧
    (overlayStatus claims cb).History = cb.History := by
  unfold overlayStatus
  split
  · split <;> simp
  · simp

/-- The key overlay changes no field other than `Key`. -/
theorem overlayKey_others (claims : Option MapClaims) (cb : Callback) :
    (overlayKey claims cb).Status = cb.Status ∧
    (overlayKey claims cb).Url = cb.Url ∧
    (overlayKey claims cb).ChangesUrl = cb.ChangesUrl ∧
    (overlayKey claims cb).Users = cb.Users ∧
    (overlayKey claims cb).Actions = cb.Actions ∧
    (overlayKey claims cb).History = cb.History := by
  unfold overlayKey
  split
  · split <;> simp
  · simp

/-- With token auth enabled, a body that decodes and a non-empty header whose
token verifies, `ParseCallback` returns the decoded callback with both overlays
applied and the token recorded. -/
theorem ParseCallback_enabled_ok (E : Env) (c : Client) (body header : GoString)
    (cb0 : Callback) (claims : Option MapClaims)
    (hJWT : c.config.JWTEnabled = true) (hU : E.Unmarshal body = .ok cb0)
    (hne : header ≠ []) (hTok : ParseToken E c (trimBearer header) = .ok claims) :
    ParseCallback E c body header =
      .ok { overlayKey claims (overlayStatus claims cb0) with
            Token := trimBearer header } := by
  simp [ParseCallback, hU, hJWT, hne, hTok]

/-- C1: with token auth enabled, `ParseCallback` with an empty Authorization
header returns an error (and no callback) for every body, and the receiver
answers a POST carrying that body and no Authorization header with status 401
and the JSON object "error": 1, invoking no handler. -/
theorem missing_token_unauthorized (E : Env) (h : callbackHandler) (r : Request)
    (body : GoString) (hJWT : h.client.config.JWTEnabled = true)
    (hPost : r.Method = str "POST") (hBody : r.Body = .ok body)
    (hAuth : r.Authorization = []) :
    (∃ err, ParseCallback E h.client body [] = .error err) ∧
    (ServeHTTP E h r).1.StatusCode = 401 ∧
    (ServeHTTP E h r).1.Body = [(str "error", 1)] ∧
    (ServeHTTP E h r).2 = [] := by
  have hparse : ∃ err, ParseCallback E h.client body [] = .error err := by
    unfold ParseCallback
    cases hU : E.Unmarshal body with
    | error err => exact ⟨err, rfl⟩
    | ok callback => exact ⟨str "missing token", by simp [hJWT]⟩
  obtain ⟨err, herr⟩ := hparse
  refine ⟨⟨err, herr⟩, ?_⟩
  simp [ServeHTTP, hPost, hBody, hAuth, herr, respondError]

/-- Witness of C1: a POST of the save body, without Authorization header, to a
receiver whose six handlers are all registered. -/
theorem missing_token_unauthorized_witness :
    (∃ err, ParseCallback demoEnv demoClient demoSaveBody [] = .error err) ∧
    (ServeHTTP demoEnv ⟨demoClient, quietHandlers⟩
      ⟨str "POST", .ok demoSaveBody, []⟩).1.StatusCode = 401 ∧
    (ServeHTTP demoEnv ⟨demoClient, quietHandlers⟩
      ⟨str "POST", .ok demoSaveBody, []⟩).1.Body = [(str "error", 1)] ∧
    (ServeHTTP demoEnv ⟨demoClient, quietHandlers⟩
      ⟨str "POST", .ok demoSaveBody, []⟩).2 = [] :=
  missing_token_unauthorized demoEnv ⟨demoClient, quietHandlers⟩
    ⟨str "POST", .ok demoSaveBody, []⟩ demoSaveBody rfl rfl rfl rfl

/-- C2: with token auth enabled, a body that decodes to a callback and a
non-empty header whose token verifies to a claim mapping, `ParseCallback`
succeeds.  A numeric `status` claim s makes the Status the Go conversion
`int(s)`, a 64-bit integer: s itself when s is an integer in that range, and in
general, for s strictly between -2^63 - 1 and 2^63, s with its fractional part
cut off towards zero.  A string `key` claim k makes the Key k.  The body's own
status and key do not matter in these cases.  Url, ChangesUrl, Users, Actions
and History are those decoded from the body, and a claim mapping without
`status` or without `key` leaves the body's value in place. -/
theorem claims_override_status_and_key (E : Env) (c : Client)
    (body header : GoString) (cb0 : Callback) (m : MapClaims)
    (hJWT : c.config.JWTEnabled = true) (hU : E.Unmarshal body = .ok cb0)
    (hne : header ≠ []) (hTok : ParseToken E c (trimBearer header) = .ok (some m)) :
    ∃ cb, ParseCallback E c body header = .ok cb ∧
      (∀ s : ℚ, m.lookup (str "status") = some (Value.number s) →
        cb.Status = goInt s ∧
        -9223372036854775808 ≤ cb.Status ∧ cb.Status ≤ 9223372036854775807 ∧
        (-9223372036854775809 < s → s < 9223372036854775808 →
          (0 ≤ s → (cb.Status : ℚ) ≤ s ∧ s < (cb.Status : ℚ) + 1) ∧
          (s ≤ 0 → s ≤ (cb.Status : ℚ) ∧ (cb.Status : ℚ) - 1 < s))) ∧
      (∀ n : Int, -9223372036854775808 ≤ n → n ≤ 9223372036854775807 →
        m.lookup (str "status") = some (Value.number n) → cb.Status = n) ∧
      (∀ k, m.lookup (str "key") = some (Value.str k) → cb.Key = k) ∧
      (m.lookup (str "status") = none → cb.Status = cb0.Status) ∧
      (m.lookup (str "key") = none → cb.Key = cb0.Key) ∧
      cb.Url = cb0.Url ∧ cb.ChangesUrl = cb0.ChangesUrl ∧ cb.Users = cb0.Users ∧
      cb.Actions = cb0.Actions ∧ cb.History = cb0.History := by
  have index_lookup : ∀ (l : MapClaims) (k : GoString),
      index (some l) k = (l.lookup k).getD Value.null := by
    intro l k
    induction l with
    | nil => simp [index]
    | cons kv rest ih =>
      obtain ⟨a, v⟩ := kv
      by_cases h : a = k
      · subst h
        simp [index, List.lookup]
      · have h2 : (k == a) = false := by
          simp only [beq_eq_false_iff_ne, ne_eq]
          exact fun e => h e.symm
        simp only [index] at ih
        simp [index, List.find?, h, List.lookup, h2, ih]
  have goInt_range : ∀ f : ℚ,
      -9223372036854775808 ≤ goInt f ∧ goInt f ≤ 9223372036854775807 := by
    intro f
    unfold goInt
    split
    · rename_i h
      exact h
    · constructor <;> decide
  have goInt_intCast : ∀ n : Int, -9223372036854775808 ≤ n → n ≤ 9223372036854775807 →
      goInt (n : ℚ) = n := by
    intro n hlo hhi
    simp [goInt, hlo, hhi]
  have goInt_of_fits : ∀ s : ℚ, -9223372036854775809 < s → s < 9223372036854775808 →
      goInt s = s.num.tdiv s.den := by
    intro s hlo hhi
    have hr : -9223372036854775808 ≤ s.num.tdiv s.den ∧
        s.num.tdiv s.den ≤ 9223372036854775807 := by
      rcases le_total 0 s with h | h
      · obtain ⟨h1, h2⟩ := tdiv_nonneg_spec s h
        have ha : ((s.num.tdiv s.den : Int) : ℚ) < 9223372036854775808 :=
          lt_of_le_of_lt h1 hhi
        have hb : (-1 : ℚ) < ((s.num.tdiv s.den : Int) : ℚ) := by linarith
        have ha2 : s.num.tdiv s.den < 9223372036854775808 := by exact_mod_cast ha
        have hb2 : (-1 : Int) < s.num.tdiv s.den := by exact_mod_cast hb
        omega
      · obtain ⟨h1, h2⟩ := tdiv_nonpos_spec s h
        have ha : (-9223372036854775809 : ℚ) < ((s.num.tdiv s.den : Int) : ℚ) :=
          lt_of_lt_of_le hlo h1
        have hb : ((s.num.tdiv s.den : Int) : ℚ) < 1 := by linarith
        have ha2 : (-9223372036854775809 : Int) < s.num.tdiv s.den := by
          exact_mod_cast ha
        have hb2 : s.num.tdiv s.den < 1 := by exact_mod_cast hb
        omega
    simp [goInt, hr]
  refine ⟨_, ParseCallback_enabled_ok E c body header cb0 (some m) hJWT hU hne hTok, ?_⟩
  have hS := overlayStatus_others (some m) cb0
  have hK := overlayKey_others (some m) (overlayStatus (some m) cb0)
  have hnum : ∀ s : ℚ, m.lookup (str "status") = some (Value.number s) →
      (overlayKey (some m) (overlayStatus (some m) cb0)).Status = goInt s := by
    intro s hs
    have hi : index (some m) (str "status") = Value.number s := by
      rw [index_lookup, hs]
      rfl
    rw [hK.1, overlayStatus_number (some m) cb0 s hi]
  refine ⟨?_, ?_, ?_, ?_, ?_, ?_, ?_, ?_, ?_, ?_⟩
  · intro s hs
    have hst : (overlayKey (some m) (overlayStatus (some m) cb0)).Status = goInt s :=
      hnum s hs
    refine ⟨hst, ?_, ?_, ?_⟩
    · show -9223372036854775808 ≤ (overlayKey (some m) (overlayStatus (some m) cb0)).Status
      rw [hst]
      exact (goInt_range s).1
    · show (overlayKey (some m) (overlayStatus (some m) cb0)).Status ≤ 9223372036854775807
      rw [hst]
      exact (goInt_range s).2
    · intro hlo hhi
      show (0 ≤ s → (((overlayKey (some m) (overlayStatus (some m) cb0)).Status : Int) : ℚ)
            ≤ s ∧ s < (((overlayKey (some m) (overlayStatus (some m) cb0)).Status : Int) : ℚ)
              + 1) ∧
          (s ≤ 0 → s ≤ (((overlayKey (some m) (overlayStatus (some m) cb0)).Status : Int) : ℚ)
            ∧ (((overlayKey (some m) (overlayStatus (some m) cb0)).Status : Int) : ℚ) - 1
              < s)
      rw [hst, goInt_of_fits s hlo hhi]
      exact ⟨tdiv_nonneg_spec s, tdiv_nonpos_spec s⟩
  · intro n hlo hhi hn
    show (overlayKey (some m) (overlayStatus (some m) cb0)).Status = n
    rw [hnum n hn, goInt_intCast n hlo hhi]
  · intro k hk
    show (overlayKey (some m) (overlayStatus (some m) cb0)).Key = k
    have hi : index (some m) (str "key") = Value.str k := by
      rw [index_lookup, hk]
      rfl
    rw [overlayKey_str (some m) _ k hi]
  · intro hs
    show (overlayKey (some m) (overlayStatus (some m) cb0)).Status = cb0.Status
    have hi : index (some m) (str "status") = Value.null := by
      rw [index_lookup, hs]
      rfl
    rw [hK.1, overlayStatus_null (some m) cb0 hi]
  · intro hk
    show (overlayKey (some m) (overlayStatus (some m) cb0)).Key = cb0.Key
    have hi : index (some m) (str "key") = Value.null := by
      rw [index_lookup, hk]
      rfl
    rw [overlayKey_null (some m) _ hi, hS.1]
  · show (overlayKey (some m) (overlayStatus (some m) cb0)).Url = cb0.Url
    rw [hK.2.1, hS.2.1]
  · show (overlayKey (some m) (overlayStatus (some m) cb0)).ChangesUrl = cb0.ChangesUrl
    rw [hK.2.2.1, hS.2.2.1]
  · show (overlayKey (some m) (overlayStatus (some m) cb0)).Users = cb0.Users
    rw [hK.2.2.2.1, hS.2.2.2.1]
  · show (overlayKey (some m) (overlayStatus (some m) cb0)).Actions = cb0.Actions
    rw [hK.2.2.2.2.1, hS.2.2.2.2.1]
  · show (overlayKey (some m) (overlayStatus (some m) cb0)).History = cb0.History
    rw [hK.2.2.2.2.2, hS.2.2.2.2.2]

/-- Witness of C2: the save body (status 2, key "k1", url "http://x/f.docx")
with a token whose claims carry status 6 and key "doc-7" gives status 6, key
"doc-7" and the body's url; with a token whose only claim is the status -5/2
it gives status -2 and the body's key "k1"; with a token whose claims carry
neither status nor key it gives the body's status 2 and key "k1"; and a status
claim of 10^19 gives a status within the 64-bit range. -/
theorem claims_override_status_and_key_witness :
    (∃ cb, ParseCallback demoEnv demoClient demoSaveBody (str "Bearer " ++ demoForceToken)
        = .ok cb ∧
      (∀ s : ℚ, demoForceClaims.lookup (str "status") = some (Value.number s) →
        cb.Status = goInt s ∧
        -9223372036854775808 ≤ cb.Status ∧ cb.Status ≤ 9223372036854775807 ∧
        (-9223372036854775809 < s → s < 9223372036854775808 →
          (0 ≤ s → (cb.Status : ℚ) ≤ s ∧ s < (cb.Status : ℚ) + 1) ∧
          (s ≤ 0 → s ≤ (cb.Status : ℚ) ∧ (cb.Status : ℚ) - 1 < s))) ∧
      (∀ n : Int, -9223372036854775808 ≤ n → n ≤ 9223372036854775807 →
        demoForceClaims.lookup (str "status") = some (Value.number n) → cb.Status = n) ∧
      (∀ k, demoForceClaims.lookup (str "key") = some (Value.str k) → cb.Key = k) ∧
      (demoForceClaims.lookup (str "status") = none →
        cb.Status = demoSaveCallback.Status) ∧
      (demoForceClaims.lookup (str "key") = none → cb.Key = demoSaveCallback.Key) ∧
      cb.Url = demoSaveCallback.Url ∧ cb.ChangesUrl = demoSaveCallback.ChangesUrl ∧
      cb.Users = demoSaveCallback.Users ∧ cb.Actions = demoSaveCallback.Actions ∧
      cb.History = demoSaveCallback.History) ∧
    (ParseCallback demoEnv demoClient demoSaveBody
      (str "Bearer " ++ demoForceToken)).toOption.map
        (fun cb => (cb.Status, cb.Key, cb.Url))
      = some (6, str "doc-7", str "http://x/f.docx") ∧
    (ParseCallback fractionEnv demoClient demoSaveBody (str "any-token")).toOption.map
        (fun cb => (cb.Status, cb.Key, cb.Url))
      = some (-2, str "k1", str "http://x/f.docx") ∧
    (ParseCallback demoEnv demoClient demoSaveBody
      (str "HS256.bare.s3cretHS256-bare")).toOption.map
        (fun cb => (cb.Status, cb.Key, cb.Url))
      = some (2, str "k1", str "http://x/f.docx") ∧
    (ParseCallback hugeEnv demoClient demoSaveBody (str "any-token")).toOption.map
        (fun cb => decide (-9223372036854775808 ≤ cb.Status ∧
          cb.Status ≤ 9223372036854775807))
      = some true :=
  ⟨claims_override_status_and_key demoEnv demoClient demoSaveBody
    (str "Bearer " ++ demoForceToken) demoSaveCallback demoForceClaims
    rfl rfl (by decide) rfl, by decide, by decide, by decide, by decide⟩

/-- C3: with token auth enabled, `ParseToken` returns an error (and no
claims) for every token whose signature does not verify under the configured
secret, for every token whose numeric `exp` lies in the past, and for every
token whose header `alg` is not a method of the HMAC family, whatever its
claims. -/
theorem ParseToken_rejects_bad_token (E : Env) (c : Client) (tokenString : GoString)
    (hJWT : c.config.JWTEnabled = true)
    (hbad : signatureVerifies E.jwt c.config.JWTSecret tokenString = false ∨
      expInPast E.jwt E.now tokenString = true ∨
      algFamily E.jwt tokenString ≠ some MethodFamily.HMAC) :
    ∃ err, ParseToken E c tokenString = .error err := by
  cases hd : E.jwt.decode tokenString with
  | error err => simp [ParseToken, jwtParse, hJWT, hd]
  | ok seg =>
    cases ha : seg.Alg with
    | none => simp [ParseToken, jwtParse, hJWT, hd, ha]
    | some alg =>
      cases hm : GetSigningMethod alg with
      | none => simp [ParseToken, jwtParse, hJWT, hd, ha, hm]
      | some method =>
        by_cases hf : method.Family = MethodFamily.HMAC
        · by_cases hv : E.jwt.verify method seg.SigningString seg.Signature
              c.config.JWTSecret = false
          · simp [ParseToken, jwtParse, hJWT, hd, ha, hm, keyFunc, hf, hv]
          · cases he : validateExp E.now seg.Claims with
            | error err =>
              simp [ParseToken, jwtParse, hJWT, hd, ha, hm, keyFunc, hf, hv, he]
            | ok u =>
              by_cases ho : E.jwt.validateOther E.now seg.Claims = false
              · simp [ParseToken, jwtParse, hJWT, hd, ha, hm, keyFunc, hf, hv, he, ho]
              exfalso
              rcases hbad with h | h | h
              · simp [signatureVerifies, hd, ha, hm] at h
                exact hv h
              · simp only [expInPast, hd] at h
                unfold validateExp at he
                split at he
                · rename_i hx
                  simp [hx] at h
                · rename_i e hx
                  simp only [hx, decide_eq_true_eq] at h
                  split at he
                  · rename_i hlt
                    exact absurd h (not_lt.mpr (le_of_lt hlt))
                  · cases he
                · cases he
              · simp [algFamily, hd, ha, hm, hf] at h
        · simp [ParseToken, jwtParse, hJWT, hd, ha, hm, keyFunc, hf]

/-- Witness of C3, at clock reading 1000 and secret "s3cret": a token signed
with another secret, a token whose `exp` is 100, and a token with `alg` "none"
(also one with `alg` RS256). -/
theorem ParseToken_rejects_bad_token_witness :
    (∃ err, ParseToken demoEnv demoClient (str "HS256.save.otherHS256-save")
      = .error err) ∧
    (∃ err, ParseToken demoEnv demoClient (str "HS256.old.s3cretHS256-old")
      = .error err) ∧
    (∃ err, ParseToken demoEnv demoClient (str "none.save.s3cretnone-save")
      = .error err) ∧
    (∃ err, ParseToken demoEnv demoClient (str "RS256.save.s3cretRS256-save")
      = .error err) :=
  ⟨ParseToken_rejects_bad_token demoEnv demoClient (str "HS256.save.otherHS256-save")
      rfl (Or.inl (by decide)),
   ParseToken_rejects_bad_token demoEnv demoClient (str "HS256.old.s3cretHS256-old")
      rfl (Or.inr (Or.inl (by decide))),
   ParseToken_rejects_bad_token demoEnv demoClient (str "none.save.s3cretnone-save")
      rfl (Or.inr (Or.inr (by decide))),
   ParseToken_rejects_bad_token demoEnv demoClient (str "RS256.save.s3cretRS256-save")
      rfl (Or.inr (Or.inr (by decide)))⟩

/-- The name HS256 resolves to the HS256 method. -/
theorem GetSigningMethod_HS256 :
    GetSigningMethod (str "HS256") = some SigningMethodHS256 := by
  decide

/-- Counterexample to C4 as stated: a client with token auth enabled and an
empty secret, and the unexpired claims "force" (expiry 2000 at clock reading
1000).  `CreateToken` returns the empty token without signing, and `ParseToken`
rejects the empty token, although the library itself would have signed and
verified these claims under the empty key. -/
theorem roundTrip_empty_secret_counterexample :
    emptySecretClient.config.JWTEnabled = true ∧
    validateExp demoEnv.now demoForceClaims = .ok () ∧
    SignVerifyContract demoEnv.jwt demoEnv.now demoForceClaims
      emptySecretClient.config.JWTSecret ∧
    CreateToken demoEnv emptySecretClient demoForceClaims = .ok [] ∧
    roundTrip demoEnv emptySecretClient demoForceClaims =
      .error (str "token is malformed: token contains an invalid number of segments") :=
  ⟨rfl, rfl,
   ⟨str "HS256.force.HS256-force",
    ⟨some (str "HS256"), demoForceClaims, str "HS256-force", str "HS256.force"⟩,
    rfl, rfl, rfl, rfl, rfl, rfl⟩,
   rfl, rfl⟩

/-- C4 (amended): for every client with token auth enabled and a non-empty
secret, and every unexpired claim mapping that the signing library signs,
verifies and otherwise accepts under that secret, `ParseToken(CreateToken(claims))`
on the same client succeeds and returns the original claims. -/
theorem roundTrip_returns_claims (E : Env) (c : Client) (claims : MapClaims)
    (hJWT : c.config.JWTEnabled = true) (hSecret : c.config.JWTSecret ≠ [])
    (hExp : validateExp E.now claims = .ok ())
    (hLib : SignVerifyContract E.jwt E.now claims c.config.JWTSecret) :
    roundTrip E c claims = .ok (some claims) := by
  obtain ⟨token, seg, hs, hd, ha, hc, hv, ho⟩ := hLib
  have hv2 : E.jwt.verify ⟨MethodFamily.HMAC, str "HS256"⟩ seg.SigningString
      seg.Signature c.config.JWTSecret = true := hv
  have hm : GetSigningMethod (str "HS256") = some ⟨MethodFamily.HMAC, str "HS256"⟩ :=
    GetSigningMethod_HS256
  subst hc
  simp [roundTrip, CreateToken, hJWT, hSecret, hs, ParseToken, jwtParse, hd, ha,
    hm, keyFunc, hv2, hExp, ho]

/-- Witness of C4 (amended): the client with secret "s3cret" and the claims
"force". -/
theorem roundTrip_returns_claims_witness :
    roundTrip demoEnv demoClient demoForceClaims = .ok (some demoForceClaims) :=
  roundTrip_returns_claims demoEnv demoClient demoForceClaims rfl (by decide) rfl
    ⟨demoForceToken,
     ⟨some (str "HS256"), demoForceClaims, str "s3cretHS256-force", str "HS256.force"⟩,
     rfl, rfl, rfl, rfl, rfl, rfl⟩

/-- C5: for a POST whose body was read and which `ParseCallback` accepts with
callback cb: when cb.Status is 1, 2, 3, 4, 6 or 7 and the field OnEditing,
OnSave, OnSaveError, OnClose, OnForceSave or OnCorrupt respectively holds a
handler, the receiver invokes exactly that handler, once, on cb, and nothing
else; when that field is empty, or cb.Status is any other integer, nothing is
invoked and the response is 200 with "error": 0. -/
theorem dispatch_by_status (E : Env) (h : callbackHandler) (r : Request)
    (body : GoString) (cb : Callback)
    (hPost : r.Method = str "POST") (hBody : r.Body = .ok body)
    (hParse : ParseCallback E h.client body r.Authorization = .ok cb) :
    (cb.Status = 1 →
      (∀ f, h.handlers.OnEditing = some f →
        (ServeHTTP E h r).2 = [⟨Slot.OnEditing, cb, f cb⟩]) ∧
      (h.handlers.OnEditing = none →
        (ServeHTTP E h r).1.StatusCode = 200 ∧
        (ServeHTTP E h r).1.Body = [(str "error", 0)] ∧
        (ServeHTTP E h r).2 = [])) ∧
    (cb.Status = 2 →
      (∀ f, h.handlers.OnSave = some f →
        (ServeHTTP E h r).2 = [⟨Slot.OnSave, cb, f cb⟩]) ∧
      (h.handlers.OnSave = none →
        (ServeHTTP E h r).1.StatusCode = 200 ∧
        (ServeHTTP E h r).1.Body = [(str "error", 0)] ∧
        (ServeHTTP E h r).2 = [])) ∧
    (cb.Status = 3 →
      (∀ f, h.handlers.OnSaveError = some f →
        (ServeHTTP E h r).2 = [⟨Slot.OnSaveError, cb, f cb⟩]) ∧
      (h.handlers.OnSaveError = none →
        (ServeHTTP E h r).1.StatusCode = 200 ∧
        (ServeHTTP E h r).1.Body = [(str "error", 0)] ∧
        (ServeHTTP E h r).2 = [])) ∧
    (cb.Status = 4 →
      (∀ f, h.handlers.OnClose = some f →
        (ServeHTTP E h r).2 = [⟨Slot.OnClose, cb, f cb⟩]) ∧
      (h.handlers.OnClose = none →
        (ServeHTTP E h r).1.StatusCode = 200 ∧
        (ServeHTTP E h r).1.Body = [(str "error", 0)] ∧
        (ServeHTTP E h r).2 = [])) ∧
    (cb.Status = 6 →
      (∀ f, h.handlers.OnForceSave = some f →
        (ServeHTTP E h r).2 = [⟨Slot.OnForceSave, cb, f cb⟩]) ∧
      (h.handlers.OnForceSave = none →
        (ServeHTTP E h r).1.StatusCode = 200 ∧
        (ServeHTTP E h r).1.Body = [(str "error", 0)] ∧
        (ServeHTTP E h r).2 = [])) ∧
    (cb.Status = 7 →
      (∀ f, h.handlers.OnCorrupt = some f →
        (ServeHTTP E h r).2 = [⟨Slot.OnCorrupt, cb, f cb⟩]) ∧
      (h.handlers.OnCorrupt = none →
        (ServeHTTP E h r).1.StatusCode = 200 ∧
        (ServeHTTP E h r).1.Body = [(str "error", 0)] ∧
        (ServeHTTP E h r).2 = [])) ∧
    (cb.Status ≠ 1 → cb.Status ≠ 2 → cb.Status ≠ 3 → cb.Status ≠ 4 → cb.Status ≠ 6 →
      cb.Status ≠ 7 →
      (ServeHTTP E h r).1.StatusCode = 200 ∧
      (ServeHTTP E h r).1.Body = [(str "error", 0)] ∧
      (ServeHTTP E h r).2 = []) := by
  refine ⟨?_, ?_, ?_, ?_, ?_, ?_, ?_⟩
  · intro hs
    constructor
    · intro f hf
      cases hr : f cb <;>
        simp [ServeHTTP, hPost, hBody, hParse, hs, statusSlot, CallbackHandlers.get, hf, hr]
    · intro hf
      simp [ServeHTTP, hPost, hBody, hParse, hs, statusSlot, CallbackHandlers.get, hf,
        respondOK]
  · intro hs
    constructor
    · intro f hf
      cases hr : f cb <;>
        simp [ServeHTTP, hPost, hBody, hParse, hs, statusSlot, CallbackHandlers.get, hf, hr]
    · intro hf
      simp [ServeHTTP, hPost, hBody, hParse, hs, statusSlot, CallbackHandlers.get, hf,
        respondOK]
  · intro hs
    constructor
    · intro f hf
      cases hr : f cb <;>
        simp [ServeHTTP, hPost, hBody, hParse, hs, statusSlot, CallbackHandlers.get, hf, hr]
    · intro hf
      simp [ServeHTTP, hPost, hBody, hParse, hs, statusSlot, CallbackHandlers.get, hf,
        respondOK]
  · intro hs
    constructor
    · intro f hf
      cases hr : f cb <;>
        simp [ServeHTTP, hPost, hBody, hParse, hs, statusSlot, CallbackHandlers.get, hf, hr]
    · intro hf
      simp [ServeHTTP, hPost, hBody, hParse, hs, statusSlot, CallbackHandlers.get, hf,
        respondOK]
  · intro hs
    constructor
    · intro f hf
      cases hr : f cb <;>
        simp [ServeHTTP, hPost, hBody, hParse, hs, statusSlot, CallbackHandlers.get, hf, hr]
    · intro hf
      simp [ServeHTTP, hPost, hBody, hParse, hs, statusSlot, CallbackHandlers.get, hf,
        respondOK]
  · intro hs
    constructor
    · intro f hf
      cases hr : f cb <;>
        simp [ServeHTTP, hPost, hBody, hParse, hs, statusSlot, CallbackHandlers.get, hf, hr]
    · intro hf
      simp [ServeHTTP, hPost, hBody, hParse, hs, statusSlot, CallbackHandlers.get, hf,
        respondOK]
  · intro h1 h2 h3 h4 h6 h7
    simp [ServeHTTP, hPost, hBody, hParse, statusSlot, h1, h2, h3, h4, h6, h7, respondOK]

/-- Witness of C5: with token auth off and six handlers that each return an
error naming their own field, the bodies with status 1, 2, 3, 4, 6 and 7 invoke
the handlers of OnEditing, OnSave, OnSaveError, OnClose, OnForceSave and
OnCorrupt respectively, once each; the bodies with status 0, 5 and 9 invoke
nothing and are answered with 200 and "error": 0; and so is the body with
status 7 when no handler is registered. -/
theorem dispatch_by_status_witness :
    ((demoSaveCallback.Status = 1 →
      (∀ f, namedHandlers.OnEditing = some f →
        (ServeHTTP demoEnv ⟨openClient, namedHandlers⟩
          ⟨str "POST", .ok demoSaveBody, []⟩).2 = [⟨Slot.OnEditing, demoSaveCallback,
            f demoSaveCallback⟩]) ∧
      (namedHandlers.OnEditing = none →
        (ServeHTTP demoEnv ⟨openClient, namedHandlers⟩
          ⟨str "POST", .ok demoSaveBody, []⟩).1.StatusCode = 200 ∧
        (ServeHTTP demoEnv ⟨openClient, namedHandlers⟩
          ⟨str "POST", .ok demoSaveBody, []⟩).1.Body = [(str "error", 0)] ∧
        (ServeHTTP demoEnv ⟨openClient, namedHandlers⟩
          ⟨str "POST", .ok demoSaveBody, []⟩).2 = [])) ∧
    (demoSaveCallback.Status = 2 →
      (∀ f, namedHandlers.OnSave = some f →
        (ServeHTTP demoEnv ⟨openClient, namedHandlers⟩
          ⟨str "POST", .ok demoSaveBody, []⟩).2 = [⟨Slot.OnSave, demoSaveCallback,
            f demoSaveCallback⟩]) ∧
      (namedHandlers.OnSave = none →
        (ServeHTTP demoEnv ⟨openClient, namedHandlers⟩
          ⟨str "POST", .ok demoSaveBody, []⟩).1.StatusCode = 200 ∧
        (ServeHTTP demoEnv ⟨openClient, namedHandlers⟩
          ⟨str "POST", .ok demoSaveBody, []⟩).1.Body = [(str "error", 0)] ∧
        (ServeHTTP demoEnv ⟨openClient, namedHandlers⟩
          ⟨str "POST", .ok demoSaveBody, []⟩).2 = [])) ∧
    (demoSaveCallback.Status = 3 →
      (∀ f, namedHandlers.OnSaveError = some f →
        (ServeHTTP demoEnv ⟨openClient, namedHandlers⟩
          ⟨str "POST", .ok demoSaveBody, []⟩).2 = [⟨Slot.OnSaveError, demoSaveCallback,
            f demoSaveCallback⟩]) ∧
      (namedHandlers.OnSaveError = none →
        (ServeHTTP demoEnv ⟨openClient, namedHandlers⟩
          ⟨str "POST", .ok demoSaveBody, []⟩).1.StatusCode = 200 ∧
        (ServeHTTP demoEnv ⟨openClient, namedHandlers⟩
          ⟨str "POST", .ok demoSaveBody, []⟩).1.Body = [(str "error", 0)] ∧
        (ServeHTTP demoEnv ⟨openClient, namedHandlers⟩
          ⟨str "POST", .ok demoSaveBody, []⟩).2 = [])) ∧
    (demoSaveCallback.Status = 4 →
      (∀ f, namedHandlers.OnClose = some f →
        (ServeHTTP demoEnv ⟨openClient, namedHandlers⟩
          ⟨str "POST", .ok demoSaveBody, []⟩).2 = [⟨Slot.OnClose, demoSaveCallback,
            f demoSaveCallback⟩]) ∧
      (namedHandlers.OnClose = none →
        (ServeHTTP demoEnv ⟨openClient, namedHandlers⟩
          ⟨str "POST", .ok demoSaveBody, []⟩).1.StatusCode = 200 ∧
        (ServeHTTP demoEnv ⟨openClient, namedHandlers⟩
          ⟨str "POST", .ok demoSaveBody, []⟩).1.Body = [(str "error", 0)] ∧
        (ServeHTTP demoEnv ⟨openClient, namedHandlers⟩
          ⟨str "POST", .ok demoSaveBody, []⟩).2 = [])) ∧
    (demoSaveCallback.Status = 6 →
      (∀ f, namedHandlers.OnForceSave = some f →
        (ServeHTTP demoEnv ⟨openClient, namedHandlers⟩
          ⟨str "POST", .ok demoSaveBody, []⟩).2 = [⟨Slot.OnForceSave, demoSaveCallback,
            f demoSaveCallback⟩]) ∧
      (namedHandlers.OnForceSave = none →
        (ServeHTTP demoEnv ⟨openClient, namedHandlers⟩
          ⟨str "POST", .ok demoSaveBody, []⟩).1.StatusCode = 200 ∧
        (ServeHTTP demoEnv ⟨openClient, namedHandlers⟩
          ⟨str "POST", .ok demoSaveBody, []⟩).1.Body = [(str "error", 0)] ∧
        (ServeHTTP demoEnv ⟨openClient, namedHandlers⟩
          ⟨str "POST", .ok demoSaveBody, []⟩).2 = [])) ∧
    (demoSaveCallback.Status = 7 →
      (∀ f, namedHandlers.OnCorrupt = some f →
        (ServeHTTP demoEnv ⟨openClient, namedHandlers⟩
          ⟨str "POST", .ok demoSaveBody, []⟩).2 = [⟨Slot.OnCorrupt, demoSaveCallback,
            f demoSaveCallback⟩]) ∧
      (namedHandlers.OnCorrupt = none →
        (ServeHTTP demoEnv ⟨openClient, namedHandlers⟩
          ⟨str "POST", .ok demoSaveBody, []⟩).1.StatusCode = 200 ∧
        (ServeHTTP demoEnv ⟨openClient, namedHandlers⟩
          ⟨str "POST", .ok demoSaveBody, []⟩).1.Body = [(str "error", 0)] ∧
        (ServeHTTP demoEnv ⟨openClient, namedHandlers⟩
          ⟨str "POST", .ok demoSaveBody, []⟩).2 = []))
      ∧
    (demoSaveCallback.Status ≠ 1 → demoSaveCallback.Status ≠ 2 →
      demoSaveCallback.Status ≠ 3 → demoSaveCallback.Status ≠ 4 →
      demoSaveCallback.Status ≠ 6 → demoSaveCallback.Status ≠ 7 →
      (ServeHTTP demoEnv ⟨openClient, namedHandlers⟩
        ⟨str "POST", .ok demoSaveBody, []⟩).1.StatusCode = 200 ∧
      (ServeHTTP demoEnv ⟨openClient, namedHandlers⟩
        ⟨str "POST", .ok demoSaveBody, []⟩).1.Body = [(str "error", 0)] ∧
      (ServeHTTP demoEnv ⟨openClient, namedHandlers⟩
        ⟨str "POST", .ok demoSaveBody, []⟩).2 = [])) ∧
    (ServeHTTP demoEnv ⟨openClient, namedHandlers⟩
      ⟨str "POST", .ok demoSaveBody, []⟩).2
      = [⟨Slot.OnSave, demoSaveCallback, some (str "save")⟩] ∧
    (ServeHTTP statusEnv ⟨openClient, namedHandlers⟩
      ⟨str "POST", .ok (statusBody 49), []⟩).2
      = [⟨Slot.OnEditing, statusCallback 1, some (str "editing")⟩] ∧
    (ServeHTTP statusEnv ⟨openClient, namedHandlers⟩
      ⟨str "POST", .ok (statusBody 50), []⟩).2
      = [⟨Slot.OnSave, statusCallback 2, some (str "save")⟩] ∧
    (ServeHTTP statusEnv ⟨openClient, namedHandlers⟩
      ⟨str "POST", .ok (statusBody 51), []⟩).2
      = [⟨Slot.OnSaveError, statusCallback 3, some (str "save-error")⟩] ∧
    (ServeHTTP statusEnv ⟨openClient, namedHandlers⟩
      ⟨str "POST", .ok (statusBody 52), []⟩).2
      = [⟨Slot.OnClose, statusCallback 4, some (str "close")⟩] ∧
    (ServeHTTP statusEnv ⟨openClient, namedHandlers⟩
      ⟨str "POST", .ok (statusBody 54), []⟩).2
      = [⟨Slot.OnForceSave, statusCallback 6, some (str "force-save")⟩] ∧
    (ServeHTTP statusEnv ⟨openClient, namedHandlers⟩
      ⟨str "POST", .ok (statusBody 55), []⟩).2
      = [⟨Slot.OnCorrupt, statusCallback 7, some (str "corrupt")⟩] ∧
    (ServeHTTP statusEnv ⟨openClient, namedHandlers⟩
      ⟨str "POST", .ok (statusBody 48), []⟩)
      = (respondOK, []) ∧
    (ServeHTTP statusEnv ⟨openClient, namedHandlers⟩
      ⟨str "POST", .ok (statusBody 53), []⟩)
      = (respondOK, []) ∧
    (ServeHTTP statusEnv ⟨openClient, namedHandlers⟩
      ⟨str "POST", .ok (statusBody 57), []⟩)
      = (respondOK, []) ∧
    (ServeHTTP demoEnv ⟨openClient, noHandlers⟩
      ⟨str "POST", .ok demoCorruptBody, []⟩)
      = (respondOK, []) :=
  ⟨dispatch_by_status demoEnv ⟨openClient, namedHandlers⟩
    ⟨str "POST", .ok demoSaveBody, []⟩ demoSaveBody demoSaveCallback rfl rfl rfl,
   by decide, by decide, by decide, by decide, by decide, by decide, by decide, by decide,
   by decide, by decide, by decide⟩

/-- Every response of the receiver is 200 with "error": 0 or a different status
with "error": 1. -/
theorem ServeHTTP_body_matches_status (E : Env) (h : callbackHandler) (r : Request) :
    ((ServeHTTP E h r).1.Body = [(str "error", 0)] ↔ (ServeHTTP E h r).1.StatusCode = 200) ∧
    ((ServeHTTP E h r).1.StatusCode ≠ 200 → (ServeHTTP E h r).1.Body = [(str "error", 1)]) := by
  unfold ServeHTTP
  split
  · simp [respondError]
  · split
    · simp [respondError]
    · split
      · simp [respondError]
      · split
        · simp [respondOK]
        · split
          · simp [respondOK]
          · split <;> simp [respondOK, respondError]

/-- C6: for a POST whose body was read and which `ParseCallback` accepts, the
response is 500 with "error": 1 exactly when the handler that was invoked
returned an error, and is 200 with "error": 0 otherwise; and for every request
whatsoever the body is "error": 0 exactly when the status is 200 and "error": 1
otherwise. -/
theorem handler_error_gives_500 (E : Env) (h : callbackHandler) (r : Request)
    (body : GoString) (cb : Callback)
    (hPost : r.Method = str "POST") (hBody : r.Body = .ok body)
    (hParse : ParseCallback E h.client body r.Authorization = .ok cb) :
    (((ServeHTTP E h r).1.StatusCode = 500 ∧ (ServeHTTP E h r).1.Body = [(str "error", 1)]) ↔
      ∃ call ∈ (ServeHTTP E h r).2, call.result ≠ none) ∧
    ((∀ call ∈ (ServeHTTP E h r).2, call.result = none) →
      (ServeHTTP E h r).1.StatusCode = 200 ∧ (ServeHTTP E h r).1.Body = [(str "error", 0)]) ∧
    (∀ q : Request,
      ((ServeHTTP E h q).1.Body = [(str "error", 0)] ↔ (ServeHTTP E h q).1.StatusCode = 200) ∧
      ((ServeHTTP E h q).1.StatusCode ≠ 200 → (ServeHTTP E h q).1.Body = [(str "error", 1)])) := by
  refine ⟨?_, ?_, fun q => ServeHTTP_body_matches_status E h q⟩
  · cases hs : statusSlot cb.Status with
    | none => simp [ServeHTTP, hPost, hBody, hParse, hs, respondOK]
    | some slot =>
      cases hf : h.handlers.get slot with
      | none => simp [ServeHTTP, hPost, hBody, hParse, hs, hf, respondOK]
      | some f =>
        cases hr : f cb <;>
          simp [ServeHTTP, hPost, hBody, hParse, hs, hf, hr, respondOK, respondError]
  · cases hs : statusSlot cb.Status with
    | none => simp [ServeHTTP, hPost, hBody, hParse, hs, respondOK]
    | some slot =>
      cases hf : h.handlers.get slot with
      | none => simp [ServeHTTP, hPost, hBody, hParse, hs, hf, respondOK]
      | some f =>
        cases hr : f cb <;>
          simp [ServeHTTP, hPost, hBody, hParse, hs, hf, hr, respondOK, respondError]

/-- Witness of C6: with token auth off, the save body posted to a receiver
whose handlers all fail. -/
theorem handler_error_gives_500_witness :
    ((((ServeHTTP demoEnv ⟨openClient, failingHandlers⟩
          ⟨str "POST", .ok demoSaveBody, []⟩).1.StatusCode = 500 ∧
        (ServeHTTP demoEnv ⟨openClient, failingHandlers⟩
          ⟨str "POST", .ok demoSaveBody, []⟩).1.Body = [(str "error", 1)]) ↔
      ∃ call ∈ (ServeHTTP demoEnv ⟨openClient, failingHandlers⟩
          ⟨str "POST", .ok demoSaveBody, []⟩).2, call.result ≠ none) ∧
    ((∀ call ∈ (ServeHTTP demoEnv ⟨openClient, failingHandlers⟩
          ⟨str "POST", .ok demoSaveBody, []⟩).2, call.result = none) →
      (ServeHTTP demoEnv ⟨openClient, failingHandlers⟩
        ⟨str "POST", .ok demoSaveBody, []⟩).1.StatusCode = 200 ∧
      (ServeHTTP demoEnv ⟨openClient, failingHandlers⟩
        ⟨str "POST", .ok demoSaveBody, []⟩).1.Body = [(str "error", 0)]) ∧
    (∀ q : Request,
      ((ServeHTTP demoEnv ⟨openClient, failingHandlers⟩ q).1.Body = [(str "error", 0)] ↔
        (ServeHTTP demoEnv ⟨openClient, failingHandlers⟩ q).1.StatusCode = 200) ∧
      ((ServeHTTP demoEnv ⟨openClient, failingHandlers⟩ q).1.StatusCode ≠ 200 →
        (ServeHTTP demoEnv ⟨openClient, failingHandlers⟩ q).1.Body = [(str "error", 1)]))) ∧
    (ServeHTTP demoEnv ⟨openClient, failingHandlers⟩
      ⟨str "POST", .ok demoSaveBody, []⟩).1.StatusCode = 500 :=
  ⟨handler_error_gives_500 demoEnv ⟨openClient, failingHandlers⟩
    ⟨str "POST", .ok demoSaveBody, []⟩ demoSaveBody demoSaveCallback rfl rfl rfl, rfl⟩

/-- C7: a request whose method is not POST is answered with 405 and
"error": 1, and no handler is invoked, whatever its body and headers and
whatever the client's token settings. -/
theorem non_post_method_not_allowed (E : Env) (h : callbackHandler) (r : Request)
    (hMethod : r.Method ≠ str "POST") :
    (ServeHTTP E h r).1.StatusCode = 405 ∧
    (ServeHTTP E h r).1.Body = [(str "error", 1)] ∧
    (ServeHTTP E h r).2 = [] := by
  simp [ServeHTTP, hMethod, respondError]

/-- Witness of C7: a GET carrying a valid body and a valid token. -/
theorem non_post_method_not_allowed_witness :
    (ServeHTTP demoEnv ⟨demoClient, quietHandlers⟩
      ⟨str "GET", .ok demoSaveBody, demoForceToken⟩).1.StatusCode = 405 ∧
    (ServeHTTP demoEnv ⟨demoClient, quietHandlers⟩
      ⟨str "GET", .ok demoSaveBody, demoForceToken⟩).1.Body = [(str "error", 1)] ∧
    (ServeHTTP demoEnv ⟨demoClient, quietHandlers⟩
      ⟨str "GET", .ok demoSaveBody, demoForceToken⟩).2 = [] :=
  non_post_method_not_allowed demoEnv ⟨demoClient, quietHandlers⟩
    ⟨str "GET", .ok demoSaveBody, demoForceToken⟩ (by decide)

/-- C8: with token auth disabled, a body that decodes to a callback with
status s, key k and url u, and any Authorization header, `ParseCallback`
succeeds with Status s, Key k and Url u (the decoded callback with the header
recorded as its token); the result is the same under every token library and
clock, so no token verification influences it. -/
theorem ParseCallback_without_token_auth (E : Env) (c : Client)
    (body header : GoString) (cb0 : Callback) (s : Int) (k u : GoString)
    (hJWT : c.config.JWTEnabled = false) (hU : E.Unmarshal body = .ok cb0)
    (hs : cb0.Status = s) (hk : cb0.Key = k) (hu : cb0.Url = u) :
    ParseCallback E c body header = .ok { cb0 with Token := header } ∧
    (∃ cb, ParseCallback E c body header = .ok cb ∧
      cb.Status = s ∧ cb.Key = k ∧ cb.Url = u) ∧
    (∀ (L : JWTLib) (now : ℚ),
      ParseCallback ⟨E.Unmarshal, L, now⟩ c body header = ParseCallback E c body header) := by
  have h1 : ∀ (L : JWTLib) (now : ℚ),
      ParseCallback ⟨E.Unmarshal, L, now⟩ c body header
        = .ok { cb0 with Token := header } := by
    intro L now
    simp [ParseCallback, hU, hJWT]
  have h2 : ParseCallback E c body header = .ok { cb0 with Token := header } := by
    simp [ParseCallback, hU, hJWT]
  refine ⟨h2, ⟨_, h2, hs, hk, hu⟩, ?_⟩
  intro L now
  rw [h1 L now, h2]

/-- Witness of C8: the save body with a garbage Authorization header. -/
theorem ParseCallback_without_token_auth_witness :
    ParseCallback demoEnv openClient demoSaveBody (str "garbage")
      = .ok { demoSaveCallback with Token := str "garbage" } ∧
    (∃ cb, ParseCallback demoEnv openClient demoSaveBody (str "garbage") = .ok cb ∧
      cb.Status = 2 ∧ cb.Key = str "k1" ∧ cb.Url = str "http://x/f.docx") ∧
    (∀ (L : JWTLib) (now : ℚ),
      ParseCallback ⟨demoEnv.Unmarshal, L, now⟩ openClient demoSaveBody (str "garbage")
        = ParseCallback demoEnv openClient demoSaveBody (str "garbage")) :=
  ParseCallback_without_token_auth demoEnv openClient demoSaveBody (str "garbage")
    demoSaveCallback 2 (str "k1") (str "http://x/f.docx") rfl rfl rfl rfl rfl

/-- One "Bearer " in front of a non-empty token is removed. -/
theorem trimBearer_append (t : GoString) (ht : t ≠ []) :
    trimBearer (str "Bearer " ++ t) = t := by
  have hlen : (str "Bearer ").length = 7 := by decide
  have hpos : 0 < t.length := List.length_pos.mpr ht
  have h1 : (str "Bearer " ++ t).length > 7 := by
    rw [List.length_append, hlen]
    omega
  have h2 : (str "Bearer " ++ t).take 7 = str "Bearer " := List.take_left' hlen
  have h3 : (str "Bearer " ++ t).drop 7 = t := List.drop_left' hlen
  simp only [trimBearer, h1, h2, h3, and_self, if_true]

/-- A header that does not start with "Bearer " followed by at least one more
byte is passed on unchanged. -/
theorem trimBearer_id (t : GoString)
    (hnb : ¬ (t.length > 7 ∧ t.take 7 = str "Bearer ")) : trimBearer t = t := by
  simp only [trimBearer, hnb, if_false]

/-- Counterexample to C9 as stated: the non-empty token string t made of
"Bearer " followed by a token that verifies.  With header t the leading
"Bearer " is removed, the remainder verifies, and the callback records the
remainder, not t, as its token; with header "Bearer " followed by t the string
handed to verification is t itself, which is rejected. -/
theorem bearer_optional_counterexample :
    str "Bearer " ++ demoForceToken ≠ [] ∧
    (ParseCallback demoEnv demoClient demoSaveBody
      (str "Bearer " ++ demoForceToken)).toOption.map (fun cb => cb.Token)
        = some demoForceToken ∧
    demoForceToken ≠ str "Bearer " ++ demoForceToken ∧
    (∃ err, ParseCallback demoEnv demoClient demoSaveBody
      (str "Bearer " ++ (str "Bearer " ++ demoForceToken)) = .error err) :=
  ⟨by decide, by decide, by decide, ⟨_, rfl⟩⟩

/-- C9 (amended): with token auth enabled, for every body and every non-empty
token string t that does not itself start with "Bearer " followed by at least
one more byte, `ParseCallback` with header "Bearer " followed by t returns
exactly what it returns with header t (the same error or the same callback),
and on success the callback's Token is t. -/
theorem bearer_optional (E : Env) (c : Client) (body t : GoString)
    (hJWT : c.config.JWTEnabled = true) (ht : t ≠ [])
    (hnb : ¬ (t.length > 7 ∧ t.take 7 = str "Bearer ")) :
    ParseCallback E c body (str "Bearer " ++ t) = ParseCallback E c body t ∧
    ∀ cb, ParseCallback E c body t = .ok cb → cb.Token = t := by
  have hb : str "Bearer " ++ t ≠ [] := by
    intro h
    exact ht (List.append_eq_nil.mp h).2
  constructor
  · unfold ParseCallback
    rw [trimBearer_append t ht, trimBearer_id t hnb]
    simp only [hJWT, if_true, ht, hb, if_false]
  · intro cb hcb
    unfold ParseCallback at hcb
    rw [trimBearer_id t hnb] at hcb
    cases hU : E.Unmarshal body with
    | error err => simp [hU] at hcb
    | ok cb0 =>
      cases hT : ParseToken E c t with
      | error err => simp [hU, hJWT, ht, hT] at hcb
      | ok claims =>
        simp [hU, hJWT, ht, hT] at hcb
        rw [← hcb]

/-- Witness of C9 (amended): the save body and the reference token for the
claims "force". -/
theorem bearer_optional_witness :
    (ParseCallback demoEnv demoClient demoSaveBody (str "Bearer " ++ demoForceToken)
      = ParseCallback demoEnv demoClient demoSaveBody demoForceToken ∧
    ∀ cb, ParseCallback demoEnv demoClient demoSaveBody demoForceToken = .ok cb →
      cb.Token = demoForceToken) ∧
    (ParseCallback demoEnv demoClient demoSaveBody demoForceToken).toOption.map
      (fun cb => (cb.Status, cb.Key, cb.Token))
        = some (6, str "doc-7", demoForceToken) :=
  ⟨bearer_optional demoEnv demoClient demoSaveBody demoForceToken rfl (by decide)
    (by decide), by decide⟩

/-- C10: `ValidateCallback` returns no error for status 2 and 6, the error
"document is corrupted" for status 7 and the error "unknown callback status"
for every other status; its result depends on the status alone. -/
theorem ValidateCallback_by_status (c : Client) (cb : Callback) :
    ((cb.Status = 2 ∨ cb.Status = 6) → ValidateCallback c cb = none) ∧
    (cb.Status = 7 → ValidateCallback c cb = some (str "document is corrupted")) ∧
    ((cb.Status ≠ 2 ∧ cb.Status ≠ 6 ∧ cb.Status ≠ 7) →
      ValidateCallback c cb = some (str "unknown callback status")) ∧
    (∀ (d : Client) (cb2 : Callback), cb2.Status = cb.Status →
      ValidateCallback d cb2 = ValidateCallback c cb) := by
  refine ⟨?_, ?_, ?_, ?_⟩
  · intro h
    simp [ValidateCallback, h]
  · intro h
    simp [ValidateCallback, h]
  · rintro ⟨h2, h6, h7⟩
    simp [ValidateCallback, h2, h6, h7]
  · intro d cb2 h
    simp [ValidateCallback, h]

/-! ### File extension and document kind -/

/-- A string without the separator has last index -1. -/
theorem LastIndex_of_not_mem (sep : UInt8) (s : GoString) (h : sep ∉ s) :
    LastIndex sep s = -1 := by
  induction s with
  | nil => rfl
  | cons c rest ih =>
    have hc : c ≠ sep := fun e => h (e ▸ List.mem_cons_self _ _)
    have hr : sep ∉ rest := fun m => h (List.mem_cons_of_mem _ m)
    simp [LastIndex, ih hr, hc]

/-- The last index of the separator in front of a separator-free tail is the
length of what precedes it. -/
theorem LastIndex_append (sep : UInt8) (pre suf : GoString) (h : sep ∉ suf) :
    LastIndex sep (pre ++ sep :: suf) = pre.length := by
  induction pre with
  | nil => simp [LastIndex, LastIndex_of_not_mem sep suf h]
  | cons c rest ih =>
    have hnn : (0 : Int) ≤ (rest.length : Int) := Int.ofNat_nonneg _
    simp [LastIndex, ih, hnn]

/-- Lower-casing the empty string gives the empty string. -/
theorem ToLower_nil (S : Sys) : ToLower S [] = [] := by
  simp [ToLower]

/-- The extension computed by `BuildEditorConfig` is the text after the final
dot of the lower-cased name, unless that name is two dots followed by dot-free
text. -/
theorem fileExt_eq (S : Sys) (filename pre suf : GoString)
    (hsplit : ToLower S filename = pre ++ 46 :: suf) (hsuf : (46 : UInt8) ∉ suf)
    (hpre : pre ≠ [46]) : fileExt S filename = suf := by
  unfold fileExt
  rw [hsplit]
  cases pre with
  | nil =>
    simp [TrimPrefixDot, LastIndex_of_not_mem 46 suf hsuf]
  | cons c rest =>
    by_cases hc : c = 46
    · subst hc
      have hrest : rest ≠ [] := fun e => hpre (by rw [e])
      have hlen : 0 < rest.length := List.length_pos.mpr hrest
      have hT : TrimPrefixDot (46 :: rest ++ 46 :: suf) = rest ++ 46 :: suf := by
        simp [TrimPrefixDot]
      rw [hT, LastIndex_append 46 rest suf hsuf]
      have hpos : ((rest.length : Int) > 0) := by exact_mod_cast hlen
      have hnat : ((rest.length : Int) + 1).toNat = rest.length + 1 := by omega
      simp only [hpos, if_true, hnat]
      rw [List.drop_append_eq_append_drop]
      simp
    · have hT : TrimPrefixDot (c :: rest ++ 46 :: suf) = (c :: rest) ++ 46 :: suf := by
        simp [TrimPrefixDot, hc]
      rw [hT, LastIndex_append 46 (c :: rest) suf hsuf]
      have hpos : (((c :: rest).length : Int) > 0) := by
        simp only [List.length_cons]
        omega
      have hnat : (((c :: rest).length : Int) + 1).toNat = (c :: rest).length + 1 := by omega
      simp only [hpos, if_true, hnat]
      rw [List.drop_append_eq_append_drop]
      simp

/-- With token auth disabled and a non-empty file name, `BuildEditorConfig`
returns a configuration with the derived extension and its document kind. -/
theorem BuildEditorConfig_disabled_ok (S : Sys) (E : Env) (c : Client)
    (clock : Nat → Time) (params : models.EditorParams) (fileURL : GoString)
    (hJWT : c.config.JWTEnabled = false) (hname : params.Filename ≠ []) :
    ∃ cfg, BuildEditorConfig S E c clock params fileURL = .ok cfg ∧
      cfg.Document.FileType = fileExt S params.Filename ∧
      cfg.DocumentType = getDocumentType S (fileExt S params.Filename) ∧
      cfg.Token = [] := by
  simp [BuildEditorConfig, hname, GenerateFileHash, sha1Write, hJWT]

/-- Counterexample to C11 as stated: the file name "..docx" contains a dot and
the text after its final dot is "docx", but `BuildEditorConfig` (token auth
disabled) removes only the first dot, finds the remaining dot at index 0 and
keeps ".docx" as the file type, whose document kind is "word", not the "text"
of "docx". -/
theorem fileType_double_dot_counterexample :
    (46 : UInt8) ∈ str "..docx" ∧
    ToLower demoSys (str "..docx") = str "." ++ 46 :: str "docx" ∧
    (46 : UInt8) ∉ str "docx" ∧
    (BuildEditorConfig demoSys demoEnv openClient demoClock (demoParams (str "..docx"))
      (str "https://example.com/storage/x")).toOption.map
        (fun cfg => (cfg.Document.FileType, cfg.DocumentType))
      = some (str ".docx", str "word") ∧
    str ".docx" ≠ str "docx" ∧
    getDocumentType demoSys (str "docx") = str "text" := by
  decide

/-- C11 (amended): with token auth disabled, for every file name whose
lower-cased form contains a dot and is not two dots followed by dot-free text,
`BuildEditorConfig` returns a configuration whose Document.FileType is the text
after the final dot of the lower-cased name and whose DocumentType is the
document kind of that file type. -/
theorem fileType_after_final_dot (S : Sys) (E : Env) (c : Client)
    (clock : Nat → Time) (params : models.EditorParams) (fileURL pre suf : GoString)
    (hJWT : c.config.JWTEnabled = false)
    (hsplit : ToLower S params.Filename = pre ++ 46 :: suf)
    (hsuf : (46 : UInt8) ∉ suf) (hpre : pre ≠ [46]) :
    ∃ cfg, BuildEditorConfig S E c clock params fileURL = .ok cfg ∧
      cfg.Document.FileType = suf ∧
      cfg.DocumentType = getDocumentType S cfg.Document.FileType := by
  have hname : params.Filename ≠ [] := by
    intro h
    rw [h, ToLower_nil] at hsplit
    exact absurd hsplit (by simp)
  obtain ⟨cfg, hcfg, hft, hdt, _⟩ :=
    BuildEditorConfig_disabled_ok S E c clock params fileURL hJWT hname
  have hext := fileExt_eq S params.Filename pre suf hsplit hsuf hpre
  refine ⟨cfg, hcfg, ?_, ?_⟩
  · rw [hft, hext]
  · rw [hdt, hft]

/-- Witness of C11 (amended): the file name "Report.XLSX" gives file type
"xlsx" and document kind "spreadsheet". -/
theorem fileType_after_final_dot_witness :
    (∃ cfg, BuildEditorConfig demoSys demoEnv openClient demoClock
        (demoParams (str "Report.XLSX")) (str "https://example.com/storage/x") = .ok cfg ∧
      cfg.Document.FileType = str "xlsx" ∧
      cfg.DocumentType = getDocumentType demoSys cfg.Document.FileType) ∧
    getDocumentType demoSys (str "xlsx") = str "spreadsheet" :=
  ⟨fileType_after_final_dot demoSys demoEnv openClient demoClock
    (demoParams (str "Report.XLSX")) (str "https://example.com/storage/x")
    (str "report") (str "xlsx") rfl (by decide) (by decide) (by decide), by decide⟩

/-- C12: `getDocumentType` is "text" when the lower-cased extension is one of
docx, doc, odt, rtf, txt, html, htm, mht, pdf; "spreadsheet" for xlsx, xls,
ods, csv; "presentation" for pptx, ppt, odp; and "word" for every other string,
the empty string included. -/
theorem getDocumentType_table (S : Sys) (ext : GoString) :
    (ToLower S ext ∈ [str "docx", str "doc", str "odt", str "rtf", str "txt",
        str "html", str "htm", str "mht", str "pdf"] →
      getDocumentType S ext = str "text") ∧
    (ToLower S ext ∈ [str "xlsx", str "xls", str "ods", str "csv"] →
      getDocumentType S ext = str "spreadsheet") ∧
    (ToLower S ext ∈ [str "pptx", str "ppt", str "odp"] →
      getDocumentType S ext = str "presentation") ∧
    (ToLower S ext ∉ [str "docx", str "doc", str "odt", str "rtf", str "txt",
        str "html", str "htm", str "mht", str "pdf", str "xlsx", str "xls", str "ods",
        str "csv", str "pptx", str "ppt", str "odp"] →
      getDocumentType S ext = str "word") ∧
    getDocumentType S [] = str "word" := by
  refine ⟨?_, ?_, ?_, ?_, ?_⟩
  · intro h
    simp only [getDocumentType, h, if_true]
  · intro h
    have h1 : ToLower S ext ∉ [str "docx", str "doc", str "odt", str "rtf", str "txt",
        str "html", str "htm", str "mht", str "pdf"] := by
      intro h2
      revert h h2
      generalize ToLower S ext = e
      intro h h2
      simp only [List.mem_cons, List.mem_singleton, List.not_mem_nil, or_false] at h h2
      rcases h with h | h | h | h <;> subst h <;> revert h2 <;> decide
    simp only [getDocumentType, h1, h, if_true, if_false]
  · intro h
    have h1 : ToLower S ext ∉ [str "docx", str "doc", str "odt", str "rtf", str "txt",
        str "html", str "htm", str "mht", str "pdf"] := by
      intro h2
      revert h h2
      generalize ToLower S ext = e
      intro h h2
      simp only [List.mem_cons, List.mem_singleton, List.not_mem_nil, or_false] at h h2
      rcases h with h | h | h <;> subst h <;> revert h2 <;> decide
    have h3 : ToLower S ext ∉ [str "xlsx", str "xls", str "ods", str "csv"] := by
      intro h2
      revert h h2
      generalize ToLower S ext = e
      intro h h2
      simp only [List.mem_cons, List.mem_singleton, List.not_mem_nil, or_false] at h h2
      rcases h with h | h | h <;> subst h <;> revert h2 <;> decide
    simp only [getDocumentType, h1, h3, h, if_true, if_false]
  · intro h
    have h1 : ToLower S ext ∉ [str "docx", str "doc", str "odt", str "rtf", str "txt",
        str "html", str "htm", str "mht", str "pdf"] := by
      intro h2
      apply h
      simp only [List.mem_cons, List.mem_singleton, List.not_mem_nil, or_false] at h2 ⊢
      tauto
    have h3 : ToLower S ext ∉ [str "xlsx", str "xls", str "ods", str "csv"] := by
      intro h2
      apply h
      simp only [List.mem_cons, List.mem_singleton, List.not_mem_nil, or_false] at h2 ⊢
      tauto
    have h4 : ToLower S ext ∉ [str "pptx", str "ppt", str "odp"] := by
      intro h2
      apply h
      simp only [List.mem_cons, List.mem_singleton, List.not_mem_nil, or_false] at h2 ⊢
      tauto
    simp only [getDocumentType, h1, h3, h4, if_false]
  · simp only [getDocumentType, ToLower_nil]
    decide

/-! ### Building the editor configuration -/

/-- Five minutes later the Unix time is 300 seconds more. -/
theorem Unix_add_five_minutes (t : Time) :
    Time.Unix (t + 5 * Minute) = Time.Unix t + 300 := by
  have h : t + 5 * Minute = t + 300 * 1000000000 := by
    simp only [Minute]
    ring
  rw [h]
  exact Int.add_mul_ediv_right t 300 (by decide)

/-- The claim set built by `BuildEditorConfig` is the prescribed one. -/
theorem BuildEditorConfig_claims (key url ext userId : GoString) (t : Time) :
    ([(str "document", Value.object [(str "key", Value.str key),
          (str "url", Value.str url), (str "fileType", Value.str ext)]),
       (str "editorConfig", Value.object
          [(str "user", Value.object [(str "id", Value.str userId)])]),
       (str "exp", Value.number (Time.Unix (t + 5 * Minute) : Int))] : MapClaims)
      = configClaims key url ext userId (Time.Unix t + 300) := by
  rw [Unix_add_five_minutes]
  rfl

/-- C13: `BuildEditorConfig` returns an error (and no configuration) whenever
the file name is empty, whatever the other inputs and token settings; with
token auth disabled it succeeds for every non-empty file name, and so fails
exactly when the file name is empty. -/
theorem BuildEditorConfig_fails_iff_empty (S : Sys) (E : Env) (c : Client)
    (clock : Nat → Time) (params : models.EditorParams) (fileURL : GoString) :
    (params.Filename = [] →
      BuildEditorConfig S E c clock params fileURL = .error (str "filename is required")) ∧
    (c.config.JWTEnabled = false → params.Filename ≠ [] →
      ∃ cfg, BuildEditorConfig S E c clock params fileURL = .ok cfg) ∧
    (c.config.JWTEnabled = false →
      ((∃ err, BuildEditorConfig S E c clock params fileURL = .error err) ↔
        params.Filename = [])) := by
  have h1 : params.Filename = [] →
      BuildEditorConfig S E c clock params fileURL = .error (str "filename is required") := by
    intro h
    simp [BuildEditorConfig, h]
  have h2 : c.config.JWTEnabled = false → params.Filename ≠ [] →
      ∃ cfg, BuildEditorConfig S E c clock params fileURL = .ok cfg := by
    intro hJWT hname
    obtain ⟨cfg, hcfg, _⟩ :=
      BuildEditorConfig_disabled_ok S E c clock params fileURL hJWT hname
    exact ⟨cfg, hcfg⟩
  refine ⟨h1, h2, ?_⟩
  intro hJWT
  constructor
  · rintro ⟨err, herr⟩
    by_contra hname
    obtain ⟨cfg, hcfg⟩ := h2 hJWT hname
    rw [hcfg] at herr
    cases herr
  · intro h
    exact ⟨_, h1 h⟩

/-- C14: a configuration returned by `BuildEditorConfig` has an empty Token
when token auth is disabled; with token auth enabled its Token is what
`CreateToken` returns for the claims document.key = its Document.Key,
document.url = the file URL, document.fileType = its Document.FileType,
editorConfig.user.id = params.UserId and exp = the Unix time of the clock
reading plus 300; and with a non-empty file name and token auth enabled, an
error of `CreateToken` on these claims is returned instead of a configuration,
while a token it returns is the Token of the configuration returned. -/
theorem BuildEditorConfig_token (S : Sys) (E : Env) (c : Client)
    (clock : Nat → Time) (params : models.EditorParams) (fileURL : GoString) :
    (∀ cfg, BuildEditorConfig S E c clock params fileURL = .ok cfg →
      c.config.JWTEnabled = false → cfg.Token = []) ∧
    (∀ cfg, BuildEditorConfig S E c clock params fileURL = .ok cfg →
      c.config.JWTEnabled = true →
      CreateToken E c (configClaims cfg.Document.Key fileURL cfg.Document.FileType
        params.UserId (Time.Unix (clock 2) + 300)) = .ok cfg.Token) ∧
    (params.Filename ≠ [] → c.config.JWTEnabled = true →
      ∃ key, GenerateFileHash S (clock 0) params.Filename = .ok key ∧
        (∀ err, CreateToken E c (configClaims key fileURL (fileExt S params.Filename)
            params.UserId (Time.Unix (clock 2) + 300)) = .error err →
          BuildEditorConfig S E c clock params fileURL = .error err) ∧
        (∀ token, CreateToken E c (configClaims key fileURL (fileExt S params.Filename)
            params.UserId (Time.Unix (clock 2) + 300)) = .ok token →
          ∃ cfg, BuildEditorConfig S E c clock params fileURL = .ok cfg ∧
            cfg.Token = token ∧ cfg.Document.Key = key ∧
            cfg.Document.FileType = fileExt S params.Filename)) := by
  refine ⟨?_, ?_, ?_⟩
  · intro cfg h hJWT
    by_cases hname : params.Filename = []
    · simp [BuildEditorConfig, hname] at h
    · simp [BuildEditorConfig, hname, GenerateFileHash, sha1Write, hJWT] at h
      rw [← h]
  · intro cfg h hJWT
    by_cases hname : params.Filename = []
    · simp [BuildEditorConfig, hname] at h
    · simp only [BuildEditorConfig, hname, GenerateFileHash, sha1Write, hJWT, if_true,
        if_false, BuildEditorConfig_claims] at h
      cases hT : CreateToken E c (configClaims (hexEncode (S.Sha1 (params.Filename ++
          S.TimeString (clock 0)))) fileURL (fileExt S params.Filename) params.UserId
          (Time.Unix (clock 2) + 300)) with
      | error err =>
        rw [hT] at h
        cases h
      | ok token =>
        rw [hT] at h
        injection h with h
        rw [← h]
        exact hT
  · intro hname hJWT
    refine ⟨hexEncode (S.Sha1 (params.Filename ++ S.TimeString (clock 0))), rfl, ?_, ?_⟩
    · intro err hT
      simp only [BuildEditorConfig, hname, GenerateFileHash, sha1Write, hJWT, if_true,
        if_false, BuildEditorConfig_claims, hT]
    · intro token hT
      simp only [BuildEditorConfig, hname, GenerateFileHash, sha1Write, hJWT, if_true,
        if_false, BuildEditorConfig_claims, hT]
      exact ⟨_, rfl, rfl, rfl, rfl⟩

/-- Witness of C14: the file "a.docx" for a client with token auth enabled and
a library that signs every claim set: the configuration carries the signed
token; without token auth the token is empty. -/
theorem BuildEditorConfig_token_witness :
    ((∀ cfg, BuildEditorConfig demoSys signEnv demoClient demoClock
          (demoParams (str "a.docx")) (str "https://example.com/storage/a.docx") = .ok cfg →
        demoClient.config.JWTEnabled = false → cfg.Token = []) ∧
      (∀ cfg, BuildEditorConfig demoSys signEnv demoClient demoClock
          (demoParams (str "a.docx")) (str "https://example.com/storage/a.docx") = .ok cfg →
        demoClient.config.JWTEnabled = true →
        CreateToken signEnv demoClient (configClaims cfg.Document.Key
          (str "https://example.com/storage/a.docx") cfg.Document.FileType
          (demoParams (str "a.docx")).UserId (Time.Unix (demoClock 2) + 300))
            = .ok cfg.Token) ∧
      ((demoParams (str "a.docx")).Filename ≠ [] → demoClient.config.JWTEnabled = true →
        ∃ key, GenerateFileHash demoSys (demoClock 0) (demoParams (str "a.docx")).Filename
            = .ok key ∧
          (∀ err, CreateToken signEnv demoClient (configClaims key
              (str "https://example.com/storage/a.docx")
              (fileExt demoSys (demoParams (str "a.docx")).Filename)
              (demoParams (str "a.docx")).UserId (Time.Unix (demoClock 2) + 300))
                = .error err →
            BuildEditorConfig demoSys signEnv demoClient demoClock
              (demoParams (str "a.docx")) (str "https://example.com/storage/a.docx")
                = .error err) ∧
          (∀ token, CreateToken signEnv demoClient (configClaims key
              (str "https://example.com/storage/a.docx")
              (fileExt demoSys (demoParams (str "a.docx")).Filename)
              (demoParams (str "a.docx")).UserId (Time.Unix (demoClock 2) + 300))
                = .ok token →
            ∃ cfg, BuildEditorConfig demoSys signEnv demoClient demoClock
                (demoParams (str "a.docx")) (str "https://example.com/storage/a.docx")
                  = .ok cfg ∧
              cfg.Token = token ∧ cfg.Document.Key = key ∧
              cfg.Document.FileType = fileExt demoSys (demoParams (str "a.docx")).Filename))) ∧
    (BuildEditorConfig demoSys signEnv demoClient demoClock
      (demoParams (str "a.docx")) (str "https://example.com/storage/a.docx")).toOption.map
        (fun cfg => cfg.Token) = some (str "signed") ∧
    (BuildEditorConfig demoSys signEnv openClient demoClock
      (demoParams (str "a.docx")) (str "https://example.com/storage/a.docx")).toOption.map
        (fun cfg => cfg.Token) = some [] ∧
    Time.Unix (demoClock 2) + 300 = 1700000302 :=
  ⟨BuildEditorConfig_token demoSys signEnv demoClient demoClock
    (demoParams (str "a.docx")) (str "https://example.com/storage/a.docx"),
   by decide, by decide, by decide⟩

/-- C15: a configuration returned by `BuildEditorConfig` copies the caller's
inputs: title, URL, user id, name and e-mail, callback URL, language, mode,
and the download and edit permissions; the chat, fill-forms and print
permissions are true. -/
theorem BuildEditorConfig_copies_inputs (S : Sys) (E : Env) (c : Client)
    (clock : Nat → Time) (params : models.EditorParams) (fileURL : GoString)
    (cfg : models.Config)
    (h : BuildEditorConfig S E c clock params fileURL = .ok cfg) :
    cfg.Document.Title = params.Filename ∧ cfg.Document.Url = fileURL ∧
    cfg.EditorConfig.User.Id = params.UserId ∧
    cfg.EditorConfig.User.Name = params.UserName ∧
    cfg.EditorConfig.User.Email = params.UserEmail ∧
    cfg.EditorConfig.CallbackUrl = params.CallbackUrl ∧
    cfg.EditorConfig.Lang = params.Language ∧
    cfg.EditorConfig.Mode = params.Mode ∧
    cfg.Document.Permissions.Download = params.CanDownload ∧
    cfg.Document.Permissions.Edit = params.CanEdit ∧
    cfg.Document.Permissions.Chat = true ∧
    cfg.Document.Permissions.FillForms = true ∧
    cfg.Document.Permissions.Print = true := by
  by_cases hname : params.Filename = []
  · simp [BuildEditorConfig, hname] at h
  · by_cases hJWT : c.config.JWTEnabled = true
    · simp only [BuildEditorConfig, hname, GenerateFileHash, sha1Write, hJWT, if_true,
        if_false] at h
      split at h
      · cases h
      · injection h with h
        rw [← h]
        exact ⟨rfl, rfl, rfl, rfl, rfl, rfl, rfl, rfl, rfl, rfl, rfl, rfl, rfl⟩
    · simp only [BuildEditorConfig, hname, GenerateFileHash, sha1Write, hJWT, if_false] at h
      injection h with h
      rw [← h]
      exact ⟨rfl, rfl, rfl, rfl, rfl, rfl, rfl, rfl, rfl, rfl, rfl, rfl, rfl⟩

/-- Witness of C15: the parameters of the repository's test (file "test.docx",
user "user1"), with token auth disabled. -/
theorem BuildEditorConfig_copies_inputs_witness :
    (BuildEditorConfig demoSys demoEnv openClient demoClock (demoParams (str "test.docx"))
      (str "https://example.com/storage/test.docx")).toOption.map
        (fun cfg => (cfg.Document.Title, cfg.EditorConfig.User.Id,
          cfg.Document.Permissions.Download, cfg.Document.Permissions.Edit))
      = some (str "test.docx", str "user1", false, true) ∧
    ∀ cfg, BuildEditorConfig demoSys demoEnv openClient demoClock
        (demoParams (str "test.docx")) (str "https://example.com/storage/test.docx")
          = .ok cfg →
      cfg.Document.Title = str "test.docx" ∧ cfg.Document.Permissions.Chat = true :=
  ⟨by decide, fun cfg h =>
    ⟨(BuildEditorConfig_copies_inputs demoSys demoEnv openClient demoClock
        (demoParams (str "test.docx")) (str "https://example.com/storage/test.docx")
        cfg h).1,
     (BuildEditorConfig_copies_inputs demoSys demoEnv openClient demoClock
        (demoParams (str "test.docx")) (str "https://example.com/storage/test.docx")
        cfg h).2.2.2.2.2.2.2.2.2.2.1⟩⟩

/-- C16: `CreateToken` returns the empty token and no error whenever token auth
is disabled or the secret is empty (also with token auth enabled), for every
claim set; the result is the same under every token library, so nothing is
signed. -/
theorem CreateToken_noop (E : Env) (c : Client) (claims : MapClaims)
    (h : c.config.JWTEnabled = false ∨ c.config.JWTSecret = []) :
    CreateToken E c claims = .ok [] ∧
    ∀ L : JWTLib, CreateToken ⟨E.Unmarshal, L, E.now⟩ c claims = .ok [] := by
  constructor
  · simp [CreateToken, h]
  · intro L
    simp [CreateToken, h]

/-- Witness of C16: token auth enabled with an empty secret, and token auth
disabled with a library that would sign. -/
theorem CreateToken_noop_witness :
    (CreateToken signEnv emptySecretClient demoForceClaims = .ok [] ∧
      ∀ L : JWTLib,
        CreateToken ⟨signEnv.Unmarshal, L, signEnv.now⟩ emptySecretClient demoForceClaims
          = .ok []) ∧
    (CreateToken signEnv openClient demoForceClaims = .ok [] ∧
      ∀ L : JWTLib,
        CreateToken ⟨signEnv.Unmarshal, L, signEnv.now⟩ openClient demoForceClaims
          = .ok []) :=
  ⟨CreateToken_noop signEnv emptySecretClient demoForceClaims (Or.inr rfl),
   CreateToken_noop signEnv openClient demoForceClaims (Or.inl rfl)⟩

/-! ### Conversion helpers -/

/-- Lookup in a table whose entries are all `true` succeeds exactly on the keys
of the table. -/
theorem lookup_all_true (l : List (GoString × Bool)) (e : GoString)
    (hl : ∀ p ∈ l, p.2 = true) :
    (match l.find? (fun p => p.1 = e) with
      | some p => p.2
      | none => false) = true ↔ e ∈ l.map (fun p => p.1) := by
  induction l with
  | nil => simp
  | cons q rest ih =>
    have hq : q.2 = true := hl q (List.mem_cons_self _ _)
    have hrest : ∀ p ∈ rest, p.2 = true := fun p hp => hl p (List.mem_cons_of_mem _ hp)
    by_cases hqe : q.1 = e
    · simp [List.find?, hqe, hq]
    · have hne : ¬ e = q.1 := fun h => hqe h.symm
      simp only [List.find?, hqe, decide_False, List.map_cons, List.mem_cons, hne, false_or]
      exact ih hrest

/-- C17: `CanConvert` is true exactly when the lower-cased extension is one of
doc, docx, odt, rtf, xls, xlsx, ods, csv, ppt, pptx, odp, pdf, txt, html, htm,
and false for every other string, such as "xyz", "mht", the empty string and
".doc". -/
theorem CanConvert_allow_list (S : Sys) (ext : GoString) :
    (CanConvert S ext = true ↔
      ToLower S ext ∈ [str "doc", str "docx", str "odt", str "rtf", str "xls",
        str "xlsx", str "ods", str "csv", str "ppt", str "pptx", str "odp", str "pdf",
        str "txt", str "html", str "htm"]) ∧
    (CanConvert S ext = false ↔
      ToLower S ext ∉ [str "doc", str "docx", str "odt", str "rtf", str "xls",
        str "xlsx", str "ods", str "csv", str "ppt", str "pptx", str "odp", str "pdf",
        str "txt", str "html", str "htm"]) ∧
    CanConvert S (str "xyz") = false ∧ CanConvert S (str "mht") = false ∧
    CanConvert S [] = false ∧ CanConvert S (str ".doc") = false ∧
    CanConvert S (str "DOCX") = true := by
  have hall : ∀ p ∈ convertibleExts, p.2 = true := by decide
  have hkeys : convertibleExts.map (fun p => p.1) =
      [str "doc", str "docx", str "odt", str "rtf", str "xls",
        str "xlsx", str "ods", str "csv", str "ppt", str "pptx", str "odp", str "pdf",
        str "txt", str "html", str "htm"] := rfl
  have h1 : CanConvert S ext = true ↔
      ToLower S ext ∈ [str "doc", str "docx", str "odt", str "rtf", str "xls",
        str "xlsx", str "ods", str "csv", str "ppt", str "pptx", str "odp", str "pdf",
        str "txt", str "html", str "htm"] := by
    rw [← hkeys]
    exact lookup_all_true convertibleExts (ToLower S ext) hall
  refine ⟨h1, ?_, rfl, rfl, rfl, rfl, rfl⟩
  rw [← h1]
  cases CanConvert S ext <;> simp

/-- C18: `GetInternalExtension` is "docx" when the lower-cased extension is
doc, odt or rtf, "xlsx" when it is xls, ods or csv, "pptx" when it is ppt or
odp, and the given extension itself, letter case included, for every other
string. -/
theorem GetInternalExtension_table (S : Sys) (ext : GoString) :
    (ToLower S ext ∈ [str "doc", str "odt", str "rtf"] →
      GetInternalExtension S ext = str "docx") ∧
    (ToLower S ext ∈ [str "xls", str "ods", str "csv"] →
      GetInternalExtension S ext = str "xlsx") ∧
    (ToLower S ext ∈ [str "ppt", str "odp"] →
      GetInternalExtension S ext = str "pptx") ∧
    (ToLower S ext ∉ [str "doc", str "odt", str "rtf", str "xls", str "ods", str "csv",
        str "ppt", str "odp"] →
      GetInternalExtension S ext = ext) ∧
    GetInternalExtension S (str "Docx") = str "Docx" ∧
    GetInternalExtension S (str "ODT") = str "docx" := by
  refine ⟨?_, ?_, ?_, ?_, rfl, rfl⟩
  · intro h
    simp only [GetInternalExtension, h, if_true]
  · intro h
    have h1 : ToLower S ext ∉ [str "doc", str "odt", str "rtf"] := by
      intro h2
      revert h h2
      generalize ToLower S ext = e
      intro h h2
      simp only [List.mem_cons, List.mem_singleton, List.not_mem_nil, or_false] at h h2
      rcases h with h | h | h <;> subst h <;> revert h2 <;> decide
    simp only [GetInternalExtension, h1, h, if_true, if_false]
  · intro h
    have h1 : ToLower S ext ∉ [str "doc", str "odt", str "rtf"] := by
      intro h2
      revert h h2
      generalize ToLower S ext = e
      intro h h2
      simp only [List.mem_cons, List.mem_singleton, List.not_mem_nil, or_false] at h h2
      rcases h with h | h <;> subst h <;> revert h2 <;> decide
    have h3 : ToLower S ext ∉ [str "xls", str "ods", str "csv"] := by
      intro h2
      revert h h2
      generalize ToLower S ext = e
      intro h h2
      simp only [List.mem_cons, List.mem_singleton, List.not_mem_nil, or_false] at h h2
      rcases h with h | h <;> subst h <;> revert h2 <;> decide
    simp only [GetInternalExtension, h1, h3, h, if_true, if_false]
  · intro h
    have h1 : ToLower S ext ∉ [str "doc", str "odt", str "rtf"] := by
      intro h2
      apply h
      simp only [List.mem_cons, List.mem_singleton, List.not_mem_nil, or_false] at h2 ⊢
      tauto
    have h3 : ToLower S ext ∉ [str "xls", str "ods", str "csv"] := by
      intro h2
      apply h
      simp only [List.mem_cons, List.mem_singleton, List.not_mem_nil, or_false] at h2 ⊢
      tauto
    have h4 : ToLower S ext ∉ [str "ppt", str "odp"] := by
      intro h2
      apply h
      simp only [List.mem_cons, List.mem_singleton, List.not_mem_nil, or_false] at h2 ⊢
      tauto
    simp only [GetInternalExtension, h1, h3, h4, if_false]

/-! ### Conversion request -/

/-- C19: once the request has been sent and the server's reply (status code and
body) has been read, `ConvertDocument` returns, for a status other than 200, an
error whose text carries the status code and the body, and no result; for
status 200 and a body that decodes to a result r it returns r, whatever the
error code in r. -/
theorem ConvertDocument_reply (N : Net) (E : Env) (c : Client) (opts : ConvertOptions)
    (payload : List (GoString × Value)) (req : HTTPRequest) (status : Int)
    (body : GoString)
    (hsign : signPayload E c (convertPayload (inferFromExt opts)) = .ok payload)
    (hreq : convertRequest N c payload = .ok req)
    (hdo : N.Do req = .ok ⟨status, .ok body⟩) :
    (status ≠ 200 →
      ConvertDocument N E c opts =
        .error (str "conversion failed with status " ++ str (toString status)
          ++ str ": " ++ body)) ∧
    (status = 200 → ∀ r, N.UnmarshalResult body = .ok r →
      ConvertDocument N E c opts = .ok r) := by
  constructor
  · intro hs
    simp [ConvertDocument, hsign, hreq, hdo, hs]
  · intro hs r hr
    simp [ConvertDocument, hsign, hreq, hdo, hs, hr]

/-- Witness of C19: a server answering 503 with body "busy", and a server
answering 200 with a result whose error code is -4. -/
theorem ConvertDocument_reply_witness :
    ConvertDocument demoNet demoEnv downClient (demoConvert (str "http://x/f.docx"))
      = .error (str "conversion failed with status 503: busy") ∧
    ConvertDocument demoNet demoEnv openClient (demoConvert (str "http://x/f.docx"))
      = .ok ⟨[], [], 0, false, -4, []⟩ :=
  ⟨(ConvertDocument_reply demoNet demoEnv downClient (demoConvert (str "http://x/f.docx"))
      (convertPayload (inferFromExt (demoConvert (str "http://x/f.docx"))))
      ⟨str "POST", str "https://down.example.com/ConvertService.ashx", str "payload",
        [(str "Content-Type", str "application/json"),
         (str "Accept", str "application/json")]⟩
      503 (str "busy") rfl rfl rfl).1 (by decide),
   (ConvertDocument_reply demoNet demoEnv openClient (demoConvert (str "http://x/f.docx"))
      (convertPayload (inferFromExt (demoConvert (str "http://x/f.docx"))))
      ⟨str "POST", str "https://example.com/ConvertService.ashx", str "payload",
        [(str "Content-Type", str "application/json"),
         (str "Accept", str "application/json")]⟩
      200 demoResultBody rfl rfl rfl).2 rfl ⟨[], [], 0, false, -4, []⟩ rfl⟩

/-- C20, the code at a failing input: for the document URL
"http://example.com/files/report" and an empty FromExt, whose final path
segment "report" has no dot, the "filetype" entry of the payload is
"com/files/report", the text after the last dot of the whole URL; with the
non-empty FromExt "docx" the entry is "docx". -/
theorem filetype_of_extensionless_url :
    (splitOnByte 47 (str "http://example.com/files/report")).getLastD [] = str "report" ∧
    (46 : UInt8) ∉ str "report" ∧
    index (some (convertPayload (inferFromExt
        ⟨str "http://example.com/files/report", [], str "pdf", str "key-1", false,
          str "report"⟩))) (str "filetype")
      = Value.str (str "com/files/report") ∧
    index (some (convertPayload (inferFromExt
        ⟨str "http://example.com/files/report", str "docx", str "pdf", str "key-1", false,
          str "report"⟩))) (str "filetype")
      = Value.str (str "docx") := by
  decide

/-! ### Further properties of the receiver and of the extension tables -/

/-- C23: a POST whose body was read but does not decode as a Callback is
answered with 401 and "error": 1, with token auth enabled or disabled, and no
handler is invoked; and whenever the receiver answers 400, reading the request
body had failed. -/
theorem undecodable_body_unauthorized (E : Env) (h : callbackHandler) (r : Request)
    (body : GoString) (err : GoError)
    (hPost : r.Method = str "POST") (hBody : r.Body = .ok body)
    (hU : E.Unmarshal body = .error err) :
    ((ServeHTTP E h r).1.StatusCode = 401 ∧
      (ServeHTTP E h r).1.Body = [(str "error", 1)] ∧
      (ServeHTTP E h r).2 = []) ∧
    (∀ q : Request, (ServeHTTP E h q).1.StatusCode = 400 → ∃ e, q.Body = .error e) ∧
    (∀ q : Request, q.Method = str "POST" → (∃ e, q.Body = .error e) →
      (ServeHTTP E h q).1.StatusCode = 400) := by
  refine ⟨?_, ?_, ?_⟩
  · have hparse : ParseCallback E h.client body r.Authorization = .error err := by
      simp [ParseCallback, hU]
    simp [ServeHTTP, hPost, hBody, hparse, respondError]
  · intro q
    unfold ServeHTTP
    split
    · simp [respondError]
    · split
      · rename_i e hq
        intro _
        exact ⟨e, hq⟩
      · split
        · simp [respondError]
        · split
          · simp [respondOK]
          · split
            · simp [respondOK]
            · split <;> simp [respondOK, respondError]
  · rintro q hq ⟨e, he⟩
    simp [ServeHTTP, hq, he, respondError]

/-- Witness of C23: a body that is not JSON, posted to a receiver without
token auth whose six handlers are all registered. -/
theorem undecodable_body_unauthorized_witness :
    (((ServeHTTP demoEnv ⟨openClient, quietHandlers⟩
          ⟨str "POST", .ok (str "not json"), []⟩).1.StatusCode = 401 ∧
        (ServeHTTP demoEnv ⟨openClient, quietHandlers⟩
          ⟨str "POST", .ok (str "not json"), []⟩).1.Body = [(str "error", 1)] ∧
        (ServeHTTP demoEnv ⟨openClient, quietHandlers⟩
          ⟨str "POST", .ok (str "not json"), []⟩).2 = []) ∧
      (∀ q : Request,
        (ServeHTTP demoEnv ⟨openClient, quietHandlers⟩ q).1.StatusCode = 400 →
          ∃ e, q.Body = .error e) ∧
      (∀ q : Request, q.Method = str "POST" → (∃ e, q.Body = .error e) →
        (ServeHTTP demoEnv ⟨openClient, quietHandlers⟩ q).1.StatusCode = 400)) ∧
    (ServeHTTP demoEnv ⟨openClient, quietHandlers⟩
      ⟨str "POST", .error (str "unexpected EOF"), []⟩).1.StatusCode = 400 :=
  ⟨undecodable_body_unauthorized demoEnv ⟨openClient, quietHandlers⟩
    ⟨str "POST", .ok (str "not json"), []⟩ (str "not json") (str "invalid character")
    rfl rfl rfl, rfl⟩

/-- C24: resolving an extension to its internal equivalent does not change the
document kind: `getDocumentType(GetInternalExtension(ext))` equals
`getDocumentType(ext)` for every string. -/
theorem internal_extension_preserves_kind (S : Sys) (ext : GoString) :
    getDocumentType S (GetInternalExtension S ext) = getDocumentType S ext := by
  have hdocx : getDocumentType S (str "docx") = str "text" := rfl
  have hxlsx : getDocumentType S (str "xlsx") = str "spreadsheet" := rfl
  have hpptx : getDocumentType S (str "pptx") = str "presentation" := rfl
  unfold GetInternalExtension
  split
  · rename_i h
    rw [hdocx]
    revert h
    unfold getDocumentType
    generalize ToLower S ext = e
    intro h
    simp only [List.mem_cons, List.mem_singleton, List.not_mem_nil, or_false] at h
    rcases h with h | h | h <;> subst h <;> decide
  · split
    · rename_i h
      rw [hxlsx]
      revert h
      unfold getDocumentType
      generalize ToLower S ext = e
      intro h
      simp only [List.mem_cons, List.mem_singleton, List.not_mem_nil, or_false] at h
      rcases h with h | h | h <;> subst h <;> decide
    · split
      · rename_i h
        rw [hpptx]
        revert h
        unfold getDocumentType
        generalize ToLower S ext = e
        intro h
        simp only [List.mem_cons, List.mem_singleton, List.not_mem_nil, or_false] at h
        rcases h with h | h <;> subst h <;> decide
      · rfl

/-! ### The document key -/

set_option maxRecDepth 100000 in
/-- The digit for the high half of any byte is a lower-case hex digit. -/
theorem hexDigit_high_all :
    ∀ n : Fin 256, isLowerHex (hexDigit ((⟨⟨n⟩⟩ : UInt8) / 16)) = true := by
  decide

set_option maxRecDepth 100000 in
/-- The digit for the low half of any byte is a lower-case hex digit. -/
theorem hexDigit_low_all :
    ∀ n : Fin 256, isLowerHex (hexDigit ((⟨⟨n⟩⟩ : UInt8) % 16)) = true := by
  decide

/-- Hex encoding doubles the length. -/
theorem hexEncode_length (data : GoString) :
    (hexEncode data).length = 2 * data.length := by
  induction data with
  | nil => rfl
  | cons b bs ih =>
    simp only [hexEncode, List.length_cons, ih]
    omega

/-- Hex encoding produces lower-case hex digits only. -/
theorem hexEncode_digits (data : GoString) :
    ∀ c ∈ hexEncode data, isLowerHex c = true := by
  induction data with
  | nil =>
    intro c hc
    simp [hexEncode] at hc
  | cons b bs ih =>
    intro c hc
    simp only [hexEncode, List.mem_cons] at hc
    rcases hc with hc | hc | hc
    · subst hc
      cases b with
      | mk bv =>
        cases bv with
        | ofFin n => exact hexDigit_high_all n
    · subst hc
      cases b with
      | mk bv =>
        cases bv with
        | ofFin n => exact hexDigit_low_all n
    · exact ih c hc

/-- C25: in every configuration `BuildEditorConfig` returns, Document.Key
equals Document.ReferenceData.FileKey and is the hex encoding of the SHA-1
digest of the file name followed by the textual form of the clock reading;
with SHA-1 digests of 20 bytes it has 40 characters, all of them lower-case
hexadecimal digits. -/
theorem document_key_is_sha1_hex (S : Sys) (E : Env) (c : Client)
    (clock : Nat → Time) (params : models.EditorParams) (fileURL : GoString)
    (cfg : models.Config)
    (hsha : ∀ data, (S.Sha1 data).length = 20)
    (h : BuildEditorConfig S E c clock params fileURL = .ok cfg) :
    cfg.Document.Key = cfg.Document.ReferenceData.FileKey ∧
    cfg.Document.Key = hexEncode (S.Sha1 (params.Filename ++ S.TimeString (clock 0))) ∧
    cfg.Document.Key.length = 40 ∧
    ∀ b ∈ cfg.Document.Key, isLowerHex b = true := by
  have hkey : cfg.Document.Key = cfg.Document.ReferenceData.FileKey ∧
      cfg.Document.Key
        = hexEncode (S.Sha1 (params.Filename ++ S.TimeString (clock 0))) := by
    by_cases hname : params.Filename = []
    · simp [BuildEditorConfig, hname] at h
    · by_cases hJWT : c.config.JWTEnabled = true
      · simp only [BuildEditorConfig, hname, GenerateFileHash, sha1Write, hJWT, if_true,
          if_false] at h
        split at h
        · cases h
        · injection h with h
          rw [← h]
          exact ⟨rfl, rfl⟩
      · simp only [BuildEditorConfig, hname, GenerateFileHash, sha1Write, hJWT,
          if_false] at h
        injection h with h
        rw [← h]
        exact ⟨rfl, rfl⟩
  refine ⟨hkey.1, hkey.2, ?_, ?_⟩
  · rw [hkey.2, hexEncode_length, hsha]
  · rw [hkey.2]
    exact hexEncode_digits _

/-- Witness of C25: the file "test.docx" at the reference clock, with the
reference digest (20 bytes). -/
theorem document_key_is_sha1_hex_witness :
    (BuildEditorConfig demoSys demoEnv openClient demoClock (demoParams (str "test.docx"))
      (str "https://example.com/storage/test.docx")).toOption.map
        (fun cfg => (cfg.Document.Key, cfg.Document.ReferenceData.FileKey))
      = some (str "746573742e646f63783137303030303030303030",
          str "746573742e646f63783137303030303030303030") ∧
    ∀ cfg, BuildEditorConfig demoSys demoEnv openClient demoClock
        (demoParams (str "test.docx")) (str "https://example.com/storage/test.docx")
          = .ok cfg →
      cfg.Document.Key = cfg.Document.ReferenceData.FileKey ∧
      cfg.Document.Key = hexEncode (demoSys.Sha1
        ((demoParams (str "test.docx")).Filename ++ demoSys.TimeString (demoClock 0))) ∧
      cfg.Document.Key.length = 40 ∧
      ∀ b ∈ cfg.Document.Key, isLowerHex b = true :=
  ⟨by decide, fun cfg h =>
    document_key_is_sha1_hex demoSys demoEnv openClient demoClock
      (demoParams (str "test.docx")) (str "https://example.com/storage/test.docx") cfg
      (fun data => by simp [demoSys]) h⟩

/-! ### The file system model -/

/-- After setting an entry, looking it up finds it. -/
theorem lookupEntry_setEntry (es : List (GoString × Node)) (c : GoString) (x : Node) :
    lookupEntry (setEntry es c x) c = some x := by
  induction es with
  | nil => simp [setEntry, lookupEntry]
  | cons e rest ih =>
    obtain ⟨n, y⟩ := e
    by_cases hn : n = c
    · simp [setEntry, lookupEntry, hn]
    · simp [setEntry, lookupEntry, hn, ih]

/-- Resolution of a concatenated path goes through the node of the first
part. -/
theorem walk_append (fs : Node) (p q : Path) :
    walk fs (p ++ q) =
      match walk fs p with
      | .ok n => walk n q
      | .error e => .error e := by
  induction p generalizing fs with
  | nil => simp [walk]
  | cons c rest ih =>
    cases fs with
    | file d => simp [walk]
    | dir es =>
      cases hl : lookupEntry es c with
      | none => simp [walk, hl]
      | some child => simp [walk, hl, ih child]

/-- The grafted node is found at the path it was grafted to. -/
theorem walk_graft (fs : Node) (p : Path) (sub new : Node)
    (h : walk fs p = .ok sub) : walk (graft fs p new) p = .ok new := by
  induction p generalizing fs with
  | nil => simp [graft, walk]
  | cons c rest ih =>
    cases fs with
    | file d => simp [walk] at h
    | dir es =>
      cases hl : lookupEntry es c with
      | none => simp [walk, hl] at h
      | some child =>
        simp only [walk, hl] at h
        simp [graft, hl, walk, lookupEntry_setEntry, ih child h]

/-- Below a grafted node, resolution continues in the grafted node. -/
theorem walk_graft_append (fs : Node) (p q : Path) (sub new : Node)
    (h : walk fs p = .ok sub) : walk (graft fs p new) (p ++ q) = walk new q := by
  rw [walk_append, walk_graft fs p sub new h]

/-- Creating directories below a directory that resolves changes only that
directory. -/
theorem mkdirAll_append (fs : Node) (p q : Path) (sub sub2 : Node)
    (h : walk fs p = .ok sub) (hm : mkdirAll sub q = .ok sub2) :
    mkdirAll fs (p ++ q) = .ok (graft fs p sub2) := by
  induction p generalizing fs with
  | nil =>
    simp only [walk, Except.ok.injEq] at h
    subst h
    simpa [graft] using hm
  | cons c rest ih =>
    cases fs with
    | file d => simp [walk] at h
    | dir es =>
      cases hl : lookupEntry es c with
      | none => simp [walk, hl] at h
      | some child =>
        simp only [walk, hl] at h
        simp [mkdirAll, hl, graft, ih child h]

/-- Writing a file below a directory that resolves changes only that
directory. -/
theorem writeFile_append (fs : Node) (p q : Path) (data : GoString) (sub sub2 : Node)
    (h : walk fs p = .ok sub) (hq : q ≠ [])
    (hw : writeFile sub q data = .ok sub2) :
    writeFile fs (p ++ q) data = .ok (graft fs p sub2) := by
  induction p generalizing fs with
  | nil =>
    simp only [walk, Except.ok.injEq] at h
    subst h
    simpa [graft] using hw
  | cons c rest ih =>
    cases fs with
    | file d => simp [walk] at h
    | dir es =>
      cases hl : lookupEntry es c with
      | none => simp [walk, hl] at h
      | some child =>
        simp only [walk, hl] at h
        have hne : rest ++ q ≠ [] := by simp [hq]
        obtain ⟨d, tl, hdt⟩ := List.exists_cons_of_ne_nil hne
        have ih2 := ih child h
        rw [hdt] at ih2
        simp [writeFile, hl, graft, hdt, ih2]

/-- A string without the separator is its own single piece. -/
theorem splitOnByte_of_not_mem (sep : UInt8) (s : GoString) (h : sep ∉ s) :
    splitOnByte sep s = [s] := by
  induction s with
  | nil => rfl
  | cons c rest ih =>
    have hc : c ≠ sep := fun e => h (e ▸ List.mem_cons_self _ _)
    have hr : sep ∉ rest := fun m => h (List.mem_cons_of_mem _ m)
    simp [splitOnByte, hc, ih hr]

/-- Joining a single path component appends it. -/
theorem joinElem_component (base : Path) (e : GoString) (hsep : (47 : UInt8) ∉ e)
    (hne : e ≠ []) (hdot : e ≠ str ".") (hdots : e ≠ str "..") :
    joinElem base e = base ++ [e] := by
  simp [joinElem, splitOnByte_of_not_mem 47 e hsep, hne, hdot, hdots]

/-! ### Writing and listing history -/

/-- The path of the history directory of a key that is a single path
component. -/
theorem Join_history_key (root : Path) (k : GoString) (hsep : (47 : UInt8) ∉ k)
    (hne : k ≠ []) (hdot : k ≠ str ".") (hdots : k ≠ str "..") :
    Join root [str ".history", k] = root ++ [str ".history", k] := by
  have h1 : joinElem root (str ".history") = root ++ [str ".history"] :=
    joinElem_component root (str ".history") (by decide) (by decide) (by decide)
      (by decide)
  simp [Join, h1, joinElem_component _ k hsep hne hdot hdots]

/-- The path of a file "changes.json" in a directory. -/
theorem Join_changes (dir : Path) :
    Join dir [str "changes.json"] = dir ++ [str "changes.json"] := by
  have h1 : joinElem dir (str "changes.json") = dir ++ [str "changes.json"] :=
    joinElem_component dir (str "changes.json") (by decide) (by decide) (by decide)
      (by decide)
  simp [Join, h1]

/-- The path of the directory ".history" below the storage root. -/
theorem Join_history (root : Path) :
    Join root [str ".history"] = root ++ [str ".history"] := by
  have h1 : joinElem root (str ".history") = root ++ [str ".history"] :=
    joinElem_component root (str ".history") (by decide) (by decide) (by decide)
      (by decide)
  simp [Join, h1]

/-- The path of the changes file of a version named by a single path
component. -/
theorem Join_version_changes (dir : Path) (k : GoString) (hsep : (47 : UInt8) ∉ k)
    (hne : k ≠ []) (hdot : k ≠ str ".") (hdots : k ≠ str "..") :
    Join dir [k, str "changes.json"] = dir ++ [k, str "changes.json"] := by
  have h1 : joinElem (dir ++ [k]) (str "changes.json")
      = (dir ++ [k]) ++ [str "changes.json"] :=
    joinElem_component (dir ++ [k]) (str "changes.json") (by decide) (by decide)
      (by decide) (by decide)
  simp [Join, h1, joinElem_component _ k hsep hne hdot hdots]

/-- One `CreateHistory` for a key that is a single path component, in terms of
the directory the storage root resolves to. -/
theorem CreateHistory_at (J : HistoryCodec) (fs : Node) (root : Path) (cb : Callback)
    (data : GoString) (R R1 R2 : Node)
    (hsep : (47 : UInt8) ∉ cb.Key) (hne : cb.Key ≠ []) (hdot : cb.Key ≠ str ".")
    (hdots : cb.Key ≠ str "..")
    (hwalk : walk fs root = .ok R)
    (hmk : mkdirAll R [str ".history", cb.Key] = .ok R1)
    (hm : J.MarshalIndent cb.History = .ok data)
    (hwr : writeFile R1 [str ".history", cb.Key, str "changes.json"] data = .ok R2) :
    CreateHistory J fs cb root = (graft (graft fs root R1) root R2, none) ∧
    walk (graft (graft fs root R1) root R2) root = .ok R2 := by
  have hJ := Join_history_key root cb.Key hsep hne hdot hdots
  have hA : mkdirAll fs (root ++ [str ".history", cb.Key]) = .ok (graft fs root R1) :=
    mkdirAll_append fs root _ R R1 hwalk hmk
  have hwalkA : walk (graft fs root R1) root = .ok R1 := walk_graft fs root R R1 hwalk
  have hB : writeFile (graft fs root R1)
      (root ++ [str ".history", cb.Key, str "changes.json"]) data
        = .ok (graft (graft fs root R1) root R2) :=
    writeFile_append (graft fs root R1) root _ data R1 R2 hwalkA (by simp) hwr
  constructor
  · unfold CreateHistory
    rw [hJ, Join_changes, hA]
    simp only [hm]
    have hp : root ++ [str ".history", cb.Key] ++ [str "changes.json"]
        = root ++ [str ".history", cb.Key, str "changes.json"] := by simp
    rw [hp, hB]
  · exact walk_graft (graft fs root R1) root R1 R2 hwalkA

/-- Listing a storage root that holds exactly one version, named by a single
path component, whose changes file decodes. -/
theorem GetHistory_single (J : HistoryCodec) (fs : Node) (root : Path)
    (filename k data : GoString) (h : History) (t : Time)
    (hsep : (47 : UInt8) ∉ k) (hne : k ≠ []) (hdot : k ≠ str ".") (hdots : k ≠ str "..")
    (hwalk : walk fs root = .ok (Node.dir [(str ".history",
      Node.dir [(k, Node.dir [(str "changes.json", Node.file data)])])]))
    (hu : J.Unmarshal data = .ok h) (ht : J.ParseTime h.Created = .ok t) :
    GetHistory J fs filename root = .ok [⟨k, h.Key, t, h.User, h.Changes⟩] := by
  have hw1 : walk fs (root ++ [str ".history"])
      = .ok (Node.dir [(k, Node.dir [(str "changes.json", Node.file data)])]) := by
    rw [walk_append, hwalk]
    simp [walk, lookupEntry]
  have hw2 : walk fs (root ++ [str ".history"] ++ [k, str "changes.json"])
      = .ok (Node.file data) := by
    rw [walk_append, hw1]
    simp [walk, lookupEntry]
  unfold GetHistory
  rw [Join_history]
  simp only [statIsNotExist, readDir, hw1, List.map_cons, List.map_nil, Node.isDir,
    sortEntries, insertEntry]
  simp only [historyLoop, if_true, Join_version_changes _ k hsep hne hdot hdots,
    readFile, hw2, hu, ht]
  simp

/-- Counterexample to C21 as stated: the document key is the empty string (a
callback whose body carries no key).  From the empty storage root "data",
`CreateHistory` succeeds, but the history directory for the empty key is
".history" itself, so "changes.json" lands directly in it and `GetHistory`
finds no version at all, although the record decodes and its timestamp
parses. -/
theorem history_empty_key_counterexample :
    (historyCallback [] demoHistory1).Key = [] ∧
    walk demoStorage [str "data"] = .ok (Node.dir []) ∧
    demoCodec.MarshalIndent demoHistory1 = .ok (str "history-1") ∧
    demoCodec.Unmarshal (str "history-1") = .ok demoHistory1 ∧
    demoCodec.ParseTime demoHistory1.Created = .ok (1704164645 * 1000000000) ∧
    (CreateHistory demoCodec demoStorage (historyCallback [] demoHistory1)
      [str "data"]).2 = none ∧
    GetHistory demoCodec
      (CreateHistory demoCodec demoStorage (historyCallback [] demoHistory1)
        [str "data"]).1
      (str "report.docx") [str "data"] = .ok [] :=
  ⟨rfl, rfl, rfl, rfl, rfl, rfl, rfl⟩

/-- C21 (amended): starting from an empty storage root, for every document key
k that is a single path component (not empty, without a separator, neither "."
nor "..") and every callback with that key whose history record survives
encoding and decoding and whose History.Created parses as a timestamp,
`CreateHistory` followed by `GetHistory` returns exactly one version, named k,
whose Created is that timestamp; a second `CreateHistory` for the same key
leaves exactly one version, carrying the data of the second write. -/
theorem history_write_then_list (J : HistoryCodec) (fs : Node) (root : Path)
    (filename k d1 d2 : GoString) (cb1 cb2 : Callback) (t1 t2 : Time)
    (hroot : walk fs root = .ok (Node.dir []))
    (hsep : (47 : UInt8) ∉ k) (hne : k ≠ []) (hdot : k ≠ str ".") (hdots : k ≠ str "..")
    (hk1 : cb1.Key = k) (hk2 : cb2.Key = k)
    (hm1 : J.MarshalIndent cb1.History = .ok d1) (hu1 : J.Unmarshal d1 = .ok cb1.History)
    (hm2 : J.MarshalIndent cb2.History = .ok d2) (hu2 : J.Unmarshal d2 = .ok cb2.History)
    (ht1 : J.ParseTime cb1.History.Created = .ok t1)
    (ht2 : J.ParseTime cb2.History.Created = .ok t2) :
    (CreateHistory J fs cb1 root).2 = none ∧
    GetHistory J (CreateHistory J fs cb1 root).1 filename root
      = .ok [⟨k, cb1.History.Key, t1, cb1.History.User, cb1.History.Changes⟩] ∧
    (CreateHistory J (CreateHistory J fs cb1 root).1 cb2 root).2 = none ∧
    GetHistory J (CreateHistory J (CreateHistory J fs cb1 root).1 cb2 root).1 filename root
      = .ok [⟨k, cb2.History.Key, t2, cb2.History.User, cb2.History.Changes⟩] := by
  subst hk1
  have hmk1 : mkdirAll (Node.dir []) [str ".history", cb1.Key]
      = .ok (Node.dir [(str ".history", Node.dir [(cb1.Key, Node.dir [])])]) := by
    simp [mkdirAll, lookupEntry, setEntry]
  have hwr1 : writeFile (Node.dir [(str ".history", Node.dir [(cb1.Key, Node.dir [])])])
      [str ".history", cb1.Key, str "changes.json"] d1
      = .ok (Node.dir [(str ".history",
          Node.dir [(cb1.Key, Node.dir [(str "changes.json", Node.file d1)])])]) := by
    simp [writeFile, lookupEntry, setEntry]
  obtain ⟨hc1, hw1⟩ := CreateHistory_at J fs root cb1 d1 _ _ _ hsep hne hdot hdots
    hroot hmk1 hm1 hwr1
  have hsep2 : (47 : UInt8) ∉ cb2.Key := by rw [hk2]; exact hsep
  have hne2 : cb2.Key ≠ [] := by rw [hk2]; exact hne
  have hdot2 : cb2.Key ≠ str "." := by rw [hk2]; exact hdot
  have hdots2 : cb2.Key ≠ str ".." := by rw [hk2]; exact hdots
  have hmk2 : mkdirAll (Node.dir [(str ".history",
        Node.dir [(cb1.Key, Node.dir [(str "changes.json", Node.file d1)])])])
      [str ".history", cb2.Key]
      = .ok (Node.dir [(str ".history",
          Node.dir [(cb1.Key, Node.dir [(str "changes.json", Node.file d1)])])]) := by
    rw [hk2]
    simp [mkdirAll, lookupEntry, setEntry]
  have hwr2 : writeFile (Node.dir [(str ".history",
        Node.dir [(cb1.Key, Node.dir [(str "changes.json", Node.file d1)])])])
      [str ".history", cb2.Key, str "changes.json"] d2
      = .ok (Node.dir [(str ".history",
          Node.dir [(cb1.Key, Node.dir [(str "changes.json", Node.file d2)])])]) := by
    rw [hk2]
    simp [writeFile, lookupEntry, setEntry]
  rw [hc1]
  obtain ⟨hc2, hw2⟩ := CreateHistory_at J _ root cb2 d2 _ _ _ hsep2 hne2 hdot2 hdots2
    hw1 hmk2 hm2 hwr2
  rw [hc2]
  refine ⟨rfl, ?_, rfl, ?_⟩
  · exact GetHistory_single J _ root filename cb1.Key d1 cb1.History t1 hsep hne hdot
      hdots hw1 hu1 ht1
  · exact GetHistory_single J _ root filename cb1.Key d2 cb2.History t2 hsep hne hdot
      hdots hw2 hu2 ht2

/-- Witness of C21 (amended): key "k1" in the empty storage root "data", first
with the record of "2024-01-02 03:04:05", then with that of
"2024-05-06 07:08:09". -/
theorem history_write_then_list_witness :
    (CreateHistory demoCodec demoStorage (historyCallback (str "k1") demoHistory1)
      [str "data"]).2 = none ∧
    GetHistory demoCodec
      (CreateHistory demoCodec demoStorage (historyCallback (str "k1") demoHistory1)
        [str "data"]).1 (str "report.docx") [str "data"]
      = .ok [⟨str "k1", (historyCallback (str "k1") demoHistory1).History.Key,
          1704164645 * 1000000000,
          (historyCallback (str "k1") demoHistory1).History.User,
          (historyCallback (str "k1") demoHistory1).History.Changes⟩] ∧
    (CreateHistory demoCodec
      (CreateHistory demoCodec demoStorage (historyCallback (str "k1") demoHistory1)
        [str "data"]).1 (historyCallback (str "k1") demoHistory2) [str "data"]).2 = none ∧
    GetHistory demoCodec
      (CreateHistory demoCodec
        (CreateHistory demoCodec demoStorage (historyCallback (str "k1") demoHistory1)
          [str "data"]).1 (historyCallback (str "k1") demoHistory2) [str "data"]).1
      (str "report.docx") [str "data"]
      = .ok [⟨str "k1", (historyCallback (str "k1") demoHistory2).History.Key,
          1714979289 * 1000000000,
          (historyCallback (str "k1") demoHistory2).History.User,
          (historyCallback (str "k1") demoHistory2).History.Changes⟩] :=
  history_write_then_list demoCodec demoStorage [str "data"] (str "report.docx")
    (str "k1") (str "history-1") (str "history-2")
    (historyCallback (str "k1") demoHistory1) (historyCallback (str "k1") demoHistory2)
    (1704164645 * 1000000000) (1714979289 * 1000000000)
    rfl (by decide) (by decide) (by decide) (by decide) rfl rfl rfl rfl rfl rfl rfl rfl

/-- The versions collected by the loop are named after the subdirectories
whose changes file can be read and decoded, in the order of the entries. -/
theorem historyLoop_versions (J : HistoryCodec) (fs : Node) (historyDir : Path)
    (files : List DirEntry) (acc : List HistoryVersion) :
    (historyLoop J fs historyDir files acc).map (fun v => v.Version)
      = acc.map (fun v => v.Version)
        ++ (files.filter (hasVersion J fs historyDir)).map (fun f => f.Name) := by
  induction files generalizing acc with
  | nil => simp [historyLoop]
  | cons file rest ih =>
    unfold historyLoop
    by_cases hd : file.IsDir = true
    · cases hr : readFile fs (Join historyDir [file.Name, str "changes.json"]) with
      | error e => simp [hd, hr, ih, hasVersion]
      | ok data =>
        cases hu : J.Unmarshal data with
        | error e => simp [hd, hr, hu, ih, hasVersion]
        | ok history => simp [hd, hr, hu, ih, hasVersion]
    · simp [hd, ih, hasVersion]

/-- Counterexample to C22 as stated: ".history" below the storage root "data"
has the immediate subdirectory "k1", which holds no "changes.json";
`GetHistory` returns no entry for it. -/
theorem history_bare_subdirectory_counterexample :
    readDir demoStorageBare [str "data", str ".history"] = .ok [⟨str "k1", true⟩] ∧
    GetHistory demoCodec demoStorageBare (str "report.docx") [str "data"] = .ok [] :=
  ⟨rfl, rfl⟩

/-- C22 (amended): for every storage state and storage root, `GetHistory`
returns exactly one entry per immediate subdirectory of ".history" whose
"changes.json" can be read and decodes as a history record, in the order of
the directory listing, and none for any other entry; it returns no entry when
".history" does not exist; and its result is the same for every value of the
filename argument. -/
theorem GetHistory_one_per_readable_subdirectory (J : HistoryCodec) (fs : Node)
    (root : Path) (filename : GoString) :
    (∀ other : GoString, GetHistory J fs other root = GetHistory J fs filename root) ∧
    (∀ files, readDir fs (Join root [str ".history"]) = .ok files →
      ∃ versions, GetHistory J fs filename root = .ok versions ∧
        versions.map (fun v => v.Version)
          = (files.filter (hasVersion J fs (Join root [str ".history"]))).map
              (fun f => f.Name)) ∧
    (statIsNotExist fs (Join root [str ".history"]) = true →
      GetHistory J fs filename root = .ok []) := by
  refine ⟨fun _ => rfl, ?_, ?_⟩
  · intro files hfiles
    have hstat : statIsNotExist fs (Join root [str ".history"]) = false := by
      unfold readDir at hfiles
      unfold statIsNotExist
      cases hw : walk fs (Join root [str ".history"]) with
      | error e => simp [hw] at hfiles
      | ok n => rfl
    refine ⟨historyLoop J fs (Join root [str ".history"]) files [], ?_, ?_⟩
    · simp [GetHistory, hstat, hfiles]
    · simpa using historyLoop_versions J fs (Join root [str ".history"]) files []
  · intro hstat
    simp [GetHistory, hstat]

/-- Witness of C22 (amended): of the four entries of ".history" in the mixed
reference storage only "k1" yields a version, whatever the filename. -/
theorem GetHistory_one_per_readable_subdirectory_witness :
    ((∀ other : GoString, GetHistory demoCodec demoStorageMixed other [str "data"]
        = GetHistory demoCodec demoStorageMixed (str "report.docx") [str "data"]) ∧
      (∀ files, readDir demoStorageMixed (Join [str "data"] [str ".history"]) = .ok files →
        ∃ versions, GetHistory demoCodec demoStorageMixed (str "report.docx") [str "data"]
            = .ok versions ∧
          versions.map (fun v => v.Version)
            = (files.filter (hasVersion demoCodec demoStorageMixed
                (Join [str "data"] [str ".history"]))).map (fun f => f.Name)) ∧
      (statIsNotExist demoStorageMixed (Join [str "data"] [str ".history"]) = true →
        GetHistory demoCodec demoStorageMixed (str "report.docx") [str "data"] = .ok [])) ∧
    readDir demoStorageMixed [str "data", str ".history"]
      = .ok [⟨str "k0", true⟩, ⟨str "k1", true⟩, ⟨str "k2", true⟩,
          ⟨str "notes.txt", false⟩] ∧
    GetHistory demoCodec demoStorageMixed (str "report.docx") [str "data"]
      = .ok [⟨str "k1", str "h-1", 1704164645 * 1000000000, none, []⟩] :=
  ⟨GetHistory_one_per_readable_subdirectory demoCodec demoStorageMixed [str "data"]
    (str "report.docx"), rfl, rfl⟩

end OnlyOffice
